import Mathlib

/-! ## ship-krew: session lifecycle (users/login) and permission decisions (users/policy)

A shallow embedding of the session handling of `users/login/main.go` and of
`verifySettingsPermissions` of `users/policy/main.go`, followed by theorems about them.

Conventions of the embedding.

* An instant (`time.Time` compared on the wall clock) is an integer number of nanoseconds
  since the Unix epoch. A `time.Duration` is an integer number of nanoseconds kept within
  the int64 range by the saturation of `Time.Sub`.
* Every call of `time.Now()` is a separate reading of the clock. The readings a request makes
  are supplied by the environment, in program order.
* The etcd key-value store (namespace `sessions/`) is a finite map from keys to stored values;
  every request to it can fail, as decided by the environment.
-/

namespace ShipKrew

/-! ## Time -/

/-- An instant: nanoseconds since the Unix epoch. -/
abbrev Time := Int

/-- A `time.Duration`: nanoseconds. -/
abbrev Duration := Int

/-- Go constant `time.Hour`, in nanoseconds. -/
def Hour : Duration := 60 * 60 * 1000000000

/-- Nanoseconds in 24 hours. -/
def nsPerDay : Duration := 24 * Hour

/-- Go constant `minDuration` (`-1 << 63`). -/
def minDuration : Duration := -(2 ^ 63)

/-- Go constant `maxDuration` (`1<<63 - 1`). -/
def maxDuration : Duration := 2 ^ 63 - 1

/-- Go `t.After(u)`: the instant `t` is strictly later than `u`. -/
def Time.After (t u : Time) : Bool := decide (u < t)

/-- Go `t.Sub(u)`: the duration `t - u`, saturated to `minDuration` / `maxDuration` when the
difference does not fit a `Duration`. -/
def Time.Sub (t u : Time) : Duration :=
  if minDuration ≤ t - u ∧ t - u ≤ maxDuration then t - u
  else if t < u then minDuration
  else maxDuration

/-- Go `t.AddDate(0, 0, days)` for a clock whose location has a fixed offset from UTC (the
service runs in UTC): the same wall-clock reading `days` calendar days later, which is then
`days` times twenty-four hours later. -/
def Time.AddDate (t : Time) (days : Int) : Time := t + days * nsPerDay

/-! ## Sessions -/

/-- The record `UserSession` of `users/login/main.go`. -/
structure UserSession where
  CreatedAt : Time
  UserID : Int
  Expiration : Time
  deriving DecidableEq, Repr

/-- Method `(*UserSession).Expired`: `time.Now().After(u.Expiration)`, with `now` the reading
that this call of `time.Now()` returns. -/
def UserSession.Expired (u : UserSession) (now : Time) : Bool :=
  Time.After now u.Expiration

/-- The value that method `(*UserSession).DaysTillExpiration` returns, as a function of the
clock: `now₁` is the reading made by its call of `Expired`, and `now₂` the reading made by
`time.Until`, which the method calls only when `Expired` returned false (`now₂` is not used
otherwise). The source computes `int(time.Until(u.Expiration).Hours() / 24)`: the duration in
hours, divided by 24 and truncated toward zero, that is the whole number of days in the
duration. The division is taken exactly here. The float64 arithmetic of the source gives the
same number for durations of less than 171 days and can give one day more beyond; it cannot
move a duration across the 72-hour mark that the callers compare with. -/
def UserSession.DaysTillExpiration (u : UserSession) (now₁ now₂ : Time) : Int :=
  if u.Expired now₁ then -1
  else Int.tdiv (Time.Sub u.Expiration now₂) nsPerDay

/-! ## The session store -/

/-- A YAML scalar, classified by how `yaml.Unmarshal` decodes it: `int n` decodes into an
`int64` field as `n`, `timestamp t` decodes into a `time.Time` field as the instant `t`, and
`text s` decodes into neither. -/
inductive YamlScalar where
  | int (n : Int)
  | timestamp (t : Time)
  | text (s : String)
  deriving DecidableEq, Repr

/-- The bytes stored under an etcd key: a YAML mapping from field names to scalars, or bytes
that `yaml.Unmarshal` cannot decode into a structure at all. -/
inductive StoredValue where
  | mapping (fields : List (String × YamlScalar))
  | invalid (raw : String)
  deriving DecidableEq, Repr

/-- A mutating request sent to etcd. -/
inductive StoreOp where
  | put (key : String) (val : StoredValue)
  | delete (key : String)
  deriving DecidableEq, Repr

/-- What a request handler cannot decide by itself: the successive readings of `time.Now()`
and whether the n-th request made to etcd fails (unreachable store, deadline exceeded). -/
structure Env where
  now : Nat → Time
  etcdDown : Nat → Bool

/-- The state a request handler acts on. `kv` is the content of etcd under the namespace
`sessions/`; `requests` lists the mutating requests issued to etcd, oldest first, whether or
not etcd carried them out; `logged` lists the messages of the error log; `cookieCleared` and
`cookieSet` are the changes made to the `session` cookie of the response. -/
structure World where
  kv : String → Option StoredValue
  clockReads : Nat
  etcdCalls : Nat
  requests : List StoreOp
  logged : List String
  cookieCleared : Bool
  cookieSet : Option String

/-- Go `time.Now()`: the next reading of the clock. -/
def timeNow (env : Env) (w : World) : Time × World :=
  (env.now w.clockReads, { w with clockReads := w.clockReads + 1 })

/-- The call `usrSession.DaysTillExpiration()` with its readings of the clock: `Expired`
reads the clock once, and `time.Until` reads it once more only when `Expired` returned
false; when `Expired` returned true the method returns -1 at once. -/
def UserSession.callDaysTillExpiration (u : UserSession) (env : Env) (w : World) :
    Int × World :=
  let (now1, w1) := timeNow env w
  if u.Expired now1 then (-1, w1)
  else
    let (now2, w2) := timeNow env w1
    (Int.tdiv (Time.Sub u.Expiration now2) nsPerDay, w2)

/-- The part of an etcd `GetResponse` used by the service. -/
structure GetResponse where
  Count : Nat
  Kvs : List (String × StoredValue)

/-- etcd `KV.Get` of a single key. -/
def etcdGet (env : Env) (key : String) (w : World) : Except String GetResponse × World :=
  let w1 := { w with etcdCalls := w.etcdCalls + 1 }
  if env.etcdDown w.etcdCalls then (.error "etcd: request failed", w1)
  else
    match w.kv key with
    | some v => (.ok { Count := 1, Kvs := [(key, v)] }, w1)
    | none => (.ok { Count := 0, Kvs := [] }, w1)

/-- etcd `KV.Put`: a request that fails leaves the store as it was. -/
def etcdPut (env : Env) (key : String) (val : StoredValue) (w : World) :
    Option String × World :=
  let w1 := { w with etcdCalls := w.etcdCalls + 1, requests := w.requests ++ [.put key val] }
  if env.etcdDown w.etcdCalls then (some "etcd: request failed", w1)
  else (none, { w1 with kv := fun k => if k = key then some val else w.kv k })

/-- etcd `KV.Delete` of a single key: a request that fails leaves the store as it was. -/
def etcdDelete (env : Env) (key : String) (w : World) : Option String × World :=
  let w1 := { w with etcdCalls := w.etcdCalls + 1, requests := w.requests ++ [.delete key] }
  if env.etcdDown w.etcdCalls then (some "etcd: request failed", w1)
  else (none, { w1 with kv := fun k => if k = key then none else w.kv k })

/-! ## YAML encoding of a session -/

/-- The zero `time.Time` (January 1, year 1, 00:00 UTC), in nanoseconds since the Unix
epoch. -/
def zeroTime : Time := -62135596800 * 1000000000

/-- Go `yaml.Marshal(usrSession)`: one entry per field of `UserSession`, under the name given
by the `yaml` tag of the field. -/
def yamlMarshal (u : UserSession) : StoredValue :=
  .mapping [("createdAt", .timestamp u.CreatedAt), ("userId", .int u.UserID),
    ("expiration", .timestamp u.Expiration)]

/-- Decoding of an optional mapping entry into a `time.Time` field: a missing entry leaves the
zero value. -/
def decodeTime : Option YamlScalar → Except String Time
  | none => .ok zeroTime
  | some (.timestamp t) => .ok t
  | some _ => .error "yaml: unmarshal errors: cannot unmarshal into time.Time"

/-- Decoding of an optional mapping entry into an `int64` field: a missing entry leaves the
zero value. User identifiers are unbounded integers in this embedding: the range check that
`yaml.Unmarshal` makes on an integer outside the int64 range is not modelled. -/
def decodeInt64 : Option YamlScalar → Except String Int
  | none => .ok 0
  | some (.int n) => .ok n
  | some _ => .error "yaml: unmarshal errors: cannot unmarshal into int64"

/-- Go `yaml.Unmarshal(val, &usrSession)`: entries are matched with the fields by their
`yaml` names, entries of other names are ignored, and a name that occurs twice is an error. -/
def yamlUnmarshal : StoredValue → Except String UserSession
  | .invalid _ => .error "yaml: cannot unmarshal"
  | .mapping fields =>
    if (fields.map Prod.fst).Nodup then
      match decodeTime (fields.lookup "createdAt"), decodeInt64 (fields.lookup "userId"),
        decodeTime (fields.lookup "expiration") with
      | .ok c, .ok i, .ok e => .ok { CreatedAt := c, UserID := i, Expiration := e }
      | .error m, _, _ => .error m
      | _, .error m, _ => .error m
      | _, _, .error m => .error m
    else .error "yaml: mapping key already defined"

/-! ## Session functions of `users/login/main.go` -/

/-- The three results of `getSessionFromEtcd`: `(*UserSession, *string, error)`. -/
structure SessionLookup where
  session : Option UserSession
  sessionID : Option String
  err : Option String

/-- Function `getSessionFromEtcd`. `cookie` is the value of the request cookie `session`,
the empty string when the request carries none. -/
def getSessionFromEtcd (env : Env) (cookie : String) (w : World) : SessionLookup × World :=
  let sessionID := cookie
  if sessionID = "" then (⟨none, none, none⟩, w)
  else
    match etcdGet env sessionID w with
    | (.error err, w1) => (⟨none, none, some err⟩, w1)
    | (.ok storedSess, w1) =>
      if storedSess.Count = 0 then (⟨none, none, none⟩, w1)
      else
        match storedSess.Kvs with
        | [] => (⟨none, none, some "no keys found"⟩, w1)
        | kv0 :: _ =>
          match yamlUnmarshal kv0.2 with
          | .error err => (⟨none, none, some err⟩, w1)
          | .ok usrSession => (⟨some usrSession, some sessionID, none⟩, w1)

/-- Function `createSessionOnEtcd`. Marshalling a `UserSession` cannot fail. -/
def createSessionOnEtcd (env : Env) (sessionID : String) (usrSession : UserSession)
    (w : World) : Option String × World :=
  let val := yamlMarshal usrSession
  etcdPut env sessionID val w

/-- Function `deleteSession`: clears the `session` cookie, then deletes the key. -/
def deleteSession (env : Env) (sessionID : String) (w : World) : Option String × World :=
  let w1 := { w with cookieCleared := true }
  etcdDelete env sessionID w1

/-! ## The login handlers -/

/-- The body of an HTTP response of the login service. -/
inductive Body where
  | text (s : String)
  | view (name : String) (title : String)
  | errorJSON (code : Int) (message : String)
  deriving DecidableEq, Repr

/-- An HTTP response: status code and body. -/
structure Response where
  status : Nat
  body : Body
  deriving DecidableEq, Repr

/-- What the session block of a handler leaves behind: whether it found the session not
expired (the handler then answers "already logged in"), whether it entered the renewal
branch, and the session record as it stands in memory afterwards. -/
structure StepResult where
  stillValid : Bool
  renewed : Bool
  session : UserSession
  deriving DecidableEq, Repr

/-- The block `if usrSession != nil { ... }` of the handlers `GET /` (lines 112-139) and
`POST /` (lines 159-185), whose text is the same in both. A session that is not expired is
renewed when `DaysTillExpiration() < 3`: its expiration is set to `time.Now().AddDate(0, 0, 7)`
and it is written back under `sessionID`, an error of the write being logged only. An expired
session is deleted with `deleteSession`, an error of the delete being logged only. The clock
is read by `Expired`, by `DaysTillExpiration` (once or twice) and by the `time.Now()` of the
renewal, in this order. -/
def evaluateAndRenew (env : Env) (sessionID : String) (usrSession : UserSession) (w : World) :
    StepResult × World :=
  let (now0, w0) := timeNow env w
  if !usrSession.Expired now0 then
    let (days, w2) := usrSession.callDaysTillExpiration env w0
    if days < 3 then
      let (now3, w3) := timeNow env w2
      let renewedSession := { usrSession with Expiration := now3.AddDate 7 }
      match createSessionOnEtcd env sessionID renewedSession w3 with
      | (some _, w4) =>
        (⟨true, true, renewedSession⟩,
          { w4 with logged := w4.logged ++ ["error while trying to update session"] })
      | (none, w4) => (⟨true, true, renewedSession⟩, w4)
    else (⟨true, false, usrSession⟩, w2)
  else
    match deleteSession env sessionID w0 with
    | (some _, w1) =>
      (⟨false, false, usrSession⟩,
        { w1 with logged := w1.logged ++ ["error while trying to delete session"] })
    | (none, w1) => (⟨false, false, usrSession⟩, w1)

/-- Handler of `GET /`. The error of `getSessionFromEtcd` is discarded by the source. -/
def getRoot (env : Env) (cookie : String) (w : World) : Response × World :=
  match getSessionFromEtcd env cookie w with
  | (⟨some usrSession, some sessionID, _⟩, w1) =>
    match evaluateAndRenew env sessionID usrSession w1 with
    | (r, w2) =>
      if r.stillValid then (⟨404, .text "already logged in"⟩, w2)
      else (⟨200, .view "index" "Login"⟩, w2)
  | (_, w1) => (⟨200, .view "index" "Login"⟩, w1)

/-- The composite literal `&UserSession{CreatedAt: time.Now(), UserID: usr.ID,
Expiration: time.Now().AddDate(0, 0, 7)}` of the handler `POST /` (lines 226-230): the
clock is read once for each of the two instants. -/
def newUserSession (env : Env) (userID : Int) (w : World) : UserSession × World :=
  let (createdAt, w1) := timeNow env w
  let (now, w2) := timeNow env w1
  ({ CreatedAt := createdAt, UserID := userID, Expiration := now.AddDate 7 }, w2)

/-- The branch of the handler `POST /` taken when the password is correct (lines 217-235):
the cookie `session` is set to the fixed session identifier, and the new session is written
to etcd under it. -/
def createLoginSession (env : Env) (userID : Int) (w : World) : Response × World :=
  let sessionID := "testing"
  let w1 := { w with cookieSet := some sessionID }
  let (usrSession, w2) := newUserSession env userID w1
  match createSessionOnEtcd env sessionID usrSession w2 with
  | (some err, w3) => (⟨500, .text err⟩, w3)
  | (none, w3) => (⟨200, .text "ok"⟩, w3)

/-- The sample clock of the scenarios: every reading of the clock during the request returns
the same instant. -/
def frozenClock (now : Time) : Env := { now := fun _ => now, etcdDown := fun _ => false }

/-- A sample clock that advances by one nanosecond from one reading to the next; etcd answers
every request. -/
def tickingClock (start : Time) : Env :=
  { now := fun n => start + n, etcdDown := fun _ => false }

/-- A sample clock that returns the listed readings one after the other, and 0 after the last;
etcd answers every request. -/
def clockOf (readings : List Time) : Env :=
  { now := fun n => readings.getD n 0, etcdDown := fun _ => false }

/-- The session of the scenarios: created at instant 0 for user 42, with a lifetime of seven
days. -/
def sampleSession : UserSession := { CreatedAt := 0, UserID := 42, Expiration := 7 * nsPerDay }

/-- A world whose store holds the single session `u` under `key`. -/
def worldWith (key : String) (u : UserSession) : World :=
  { kv := fun k => if k = key then some (yamlMarshal u) else none,
    clockReads := 0, etcdCalls := 0, requests := [], logged := [],
    cookieCleared := false, cookieSet := none }

/-! ## The permission decisions of `users/policy/main.go` -/

/-- A Go value of type `interface{}` as the rule engine and the JSON decoder produce it: `nil`,
`bool`, `json.Number` (a string type), `string`, `[]interface{}` or `map[string]interface{}`.
The entries of a map are listed in the order in which a `range` loop visits them. -/
inductive JSONValue where
  | null
  | bool (b : Bool)
  | number (digits : String)
  | string (s : String)
  | array (items : List JSONValue)
  | object (entries : List (String × JSONValue))

/-- How a call of a Go function that returns `(result, error)` ends: with a result and a nil
error, with an error, or in a run-time panic. -/
inductive Outcome (α : Type) where
  | ok (val : α)
  | error (msg : String)
  | panic (msg : String)
  deriving DecidableEq, Repr

/-- Modelled from the spec: the declaration of `types.Permission` (package
`users/policy/pkg/types`) is not among the sources. Its two fields are the ones the composite
literals of `verifySettingsPermissions` fill in, an `allowed` flag and the sequence of
`reasons`; a nil slice and an empty slice are both the empty sequence. -/
structure Permission where
  Allowed : Bool
  Reasons : List String
  deriving DecidableEq, Repr

/-- Modelled from the spec: the declaration of `types.UserSettingsPermissions` (package
`users/policy/pkg/types`) is not among the sources. It has one `Permission` for each tracked
capability, under the names used by `verifySettingsPermissions`. -/
structure UserSettingsPermissions where
  CanModifyOwnProfile : Permission
  CanChangeUsername : Permission
  CanChangeDOB : Permission
  deriving DecidableEq, Repr

/-- Type `rego.ExpressionValue`, reduced to the field the service reads. -/
structure ExpressionValue where
  Value : JSONValue

/-- Type `rego.Result`, reduced to the field the service reads. -/
structure Result where
  Expressions : List ExpressionValue

/-- Type `rego.ResultSet`. -/
abbrev ResultSet := List Result

/-- The two functions of the OPA library that parse the request body: `util.Unmarshal` and
`ast.InterfaceToValue`. They are taken as given. -/
structure OpaLib where
  Unmarshal : List UInt8 → Except String JSONValue
  InterfaceToValue : JSONValue → Except String JSONValue

/-- Type `verifier`: the prepared query `data.users.settings.permissions`, that is the function
computed by `Eval` with the parsed input bound. It is taken as given. -/
structure verifier where
  settingsPermissions : JSONValue → Except String ResultSet

/-- Constant `notAllowedChangeSettings` of `verifySettingsPermissions`. -/
def notAllowedChangeSettings : String := "not_allowed_change_settings"

/-- Constant `cantChangeDOB` of `verifySettingsPermissions`. -/
def cantChangeDOB : String := "cant_change_dob"

/-- Constant `cantChangeUsername` of `verifySettingsPermissions`. -/
def cantChangeUsername : String := "cant_change_username"

/-- Go `m[key] = val` on a `map[string][]string`. -/
def mapSet (m : List (String × List String)) (key : String) (val : List String) :
    List (String × List String) :=
  match m with
  | [] => [(key, val)]
  | (k, v) :: rest => if k = key then (key, val) :: rest else (k, v) :: mapSet rest key val

/-- Go `m[key]` on a `map[string][]string`: the empty (nil) sequence for a missing key. -/
def mapGet (m : List (String × List String)) (key : String) : List String :=
  match m with
  | [] => []
  | (k, v) :: rest => if k = key then v else mapGet rest key

/-- The inner loop of `verifySettingsPermissions`,
`for _, r := range val { valReasons = append(valReasons, r.(string)) }`: the type assertion
panics on an item that is not a string. -/
def appendReasons (valReasons : List String) : List JSONValue → Outcome (List String)
  | [] => .ok valReasons
  | .string r :: rest => appendReasons (valReasons ++ [r]) rest
  | _ :: _ => .panic "interface conversion: item is not a string"

/-- The outer loop of `verifySettingsPermissions`, `for key, _val := range expressions`: the
type assertion `_val.([]interface{})` panics on a value that is not an array. -/
def collectReasons (reasons : List (String × List String)) :
    List (String × JSONValue) → Outcome (List (String × List String))
  | [] => .ok reasons
  | (key, .array val) :: rest =>
    match appendReasons [] val with
    | .ok valReasons => collectReasons (mapSet reasons key valReasons) rest
    | .error msg => .error msg
    | .panic msg => .panic msg
  | (_, _) :: _ => .panic "interface conversion: value is not an array"

/-- Method `(*verifier).verifySettingsPermissions`. The type assertion
`Value.(map[string]interface{})` panics on a value that is not a map. -/
def verifySettingsPermissions (lib : OpaLib) (v : verifier) (data : List UInt8) :
    Outcome UserSettingsPermissions :=
  match lib.Unmarshal data with
  | .error err => .error ("unable to parse input: " ++ err)
  | .ok input =>
    match lib.InterfaceToValue input with
    | .error err => .error ("unable to process input: " ++ err)
    | .ok inputValue =>
      match v.settingsPermissions inputValue with
      | .error err => .error ("cannot check permissions: " ++ err)
      | .ok result =>
        match result with
        | [] => .error "no results set"
        | result0 :: _ =>
          match result0.Expressions with
          | [] => .error "no expressions found"
          | expression0 :: _ =>
            match expression0.Value with
            | .object expressions =>
              match collectReasons [] expressions with
              | .ok reasons =>
                .ok {
                  CanModifyOwnProfile := {
                    Allowed := (mapGet reasons notAllowedChangeSettings).length == 0,
                    Reasons := mapGet reasons notAllowedChangeSettings },
                  CanChangeUsername := {
                    Allowed := (mapGet reasons cantChangeUsername).length == 0,
                    Reasons := mapGet reasons cantChangeUsername },
                  CanChangeDOB := {
                    Allowed := (mapGet reasons cantChangeDOB).length == 0,
                    Reasons := mapGet reasons cantChangeDOB } }
              | .error msg => .error msg
              | .panic msg => .panic msg
            | _ => .panic "interface conversion: value is not a map"

/-- The body of an HTTP response of the policy service. -/
inductive PolicyBody where
  | text (s : String)
  | json (perms : UserSettingsPermissions)
  deriving DecidableEq, Repr

/-- How the policy service ends a request: with a response (status code and body), or with
the panic of the handler, which nothing recovers. -/
inductive PolicyReply where
  | responded (status : Nat) (body : PolicyBody)
  | crashed (msg : String)
  deriving DecidableEq, Repr

/-- Handler of `POST /settings/permissions`. Every error of `verifySettingsPermissions` is
answered with `fiber.StatusInternalServerError`; the second test `if err != nil` of the source
stands behind the first and is never reached. -/
def postSettingsPermissions (lib : OpaLib) (ver : verifier) (body : List UInt8) : PolicyReply :=
  match verifySettingsPermissions lib ver body with
  | .error err => .responded 500 (.text err)
  | .ok perms => .responded 200 (.json perms)
  | .panic msg => .crashed msg

/-- A rule output of the expected shape: a map from denial-category key to a sequence of
reason strings. -/
def ruleOutput (m : List (String × List String)) : JSONValue :=
  .object (m.map fun kv => (kv.1, .array (kv.2.map .string)))

/-- The request body `{}`, an empty JSON object. -/
def emptyObjectBody : List UInt8 := [123, 125]

/-- The request body `{"a":`, a JSON object cut short. -/
def truncatedBody : List UInt8 := [123, 34, 97, 34, 58]

/-- A sample of the parsing functions, which answers as `util.Unmarshal` does on the three
bodies of the examples: the body `{}` is parsed as an empty JSON object, the empty body as
`null`, and the body `{"a":` is rejected. The sample rejects every other body too; no example
uses one. The text of the error stands for the one of the library. -/
def sampleLib : OpaLib :=
  { Unmarshal := fun data =>
      if data = emptyObjectBody then .ok (.object [])
      else if data = [] then .ok .null
      else .error "cannot parse",
    InterfaceToValue := fun input => .ok input }

/-- The status code of a reply of the policy service, if it is a response. -/
def PolicyReply.status : PolicyReply → Option Nat
  | .responded status _ => some status
  | .crashed _ => none

/-- A sample rule set: the query evaluates to one result set with the one expression `val`,
whatever the input. -/
def engineReturning (val : JSONValue) : verifier :=
  { settingsPermissions := fun _ => .ok [{ Expressions := [{ Value := val }] }] }

/-! ## Error codes of `users/api/pkg/errors/errors.go` -/

/-- Constant `CodeEmptyUsername` (`iota + 1`, position 1 of the block). -/
def CodeEmptyUsername : Int := 1

/-- Constant `CodeInvalidUsername` (`iota + 1`, position 2 of the block). -/
def CodeInvalidUsername : Int := 2

/-- Constant `CodeUsernameTooLong` (`iota + 1`, position 3 of the block). -/
def CodeUsernameTooLong : Int := 3

/-- Constant `CodeInvalidUserID` (`iota + 1`, position 4 of the block). -/
def CodeInvalidUserID : Int := 4

/-- Constant `CodeEmptyBody` (`iota + 1`, position 5 of the block). -/
def CodeEmptyBody : Int := 5

/-- Constant `CodeInvalidUserPost` (`iota + 1`, position 6 of the block). -/
def CodeInvalidUserPost : Int := 6

/-- Constant `CodeEmptyDisplayName` (`iota + 1`, position 7 of the block). -/
def CodeEmptyDisplayName : Int := 7

/-- Constant `CodeDisplayNameTooLong` (`iota + 1`, position 8 of the block). -/
def CodeDisplayNameTooLong : Int := 8

/-- Constant `CodeEmptyEmail` (`iota + 1`, position 9 of the block). -/
def CodeEmptyEmail : Int := 9

/-- Constant `CodeEmptyRegistrationIP` (`iota + 1`, position 10 of the block). -/
def CodeEmptyRegistrationIP : Int := 10

/-- Constant `CodeBioTooLong` (`iota + 1`, position 11 of the block). -/
def CodeBioTooLong : Int := 11

/-- Constant `CodeUsernameAlreadyExists` (`iota + 1`, position 12 of the block). -/
def CodeUsernameAlreadyExists : Int := 12

/-- Constant `CodeEmailAlreadyExists` (`iota + 1`, position 13 of the block). -/
def CodeEmailAlreadyExists : Int := 13

/-- Constant `CodeInvalidEmail` (`iota + 1`, position 14 of the block). -/
def CodeInvalidEmail : Int := 14

/-- Constant `CodeEmailTooLong` (`iota + 1`, position 15 of the block). -/
def CodeEmailTooLong : Int := 15

/-- Constant `CodeEmptyPasswordHash` (`iota + 1`, position 16 of the block). -/
def CodeEmptyPasswordHash : Int := 16

/-- Constant `CodeIncompatiblePasswordHash` (`iota + 1`, position 17 of the block). -/
def CodeIncompatiblePasswordHash : Int := 17

/-- Constant `CodeInvalidSaltLength` (`iota + 1`, position 18 of the block). -/
def CodeInvalidSaltLength : Int := 18

/-- Constant `CodeInvalidBase64Salt` (`iota + 1`, position 19 of the block). -/
def CodeInvalidBase64Salt : Int := 19

/-- Constant `CodeInvalidPage` (`iota + 1`, position 20 of the block). -/
def CodeInvalidPage : Int := 20

/-- Constant `CodeInvalidNameIn` (`iota + 1`, position 21 of the block). -/
def CodeInvalidNameIn : Int := 21

/-- Constant `CodeInvalidEmailIn` (`iota + 1`, position 22 of the block). -/
def CodeInvalidEmailIn : Int := 22

/-- Constant `CodeInvalidIdIn` (`iota + 1`, position 23 of the block). -/
def CodeInvalidIdIn : Int := 23

/-- Constant `CodeUserNotFound`. -/
def CodeUserNotFound : Int := 404

/-- Constant `CodeInternalServerError`. -/
def CodeInternalServerError : Int := 500

/-- Constant `fiber.StatusBadRequest`. -/
def StatusBadRequest : Nat := 400

/-- Constant `fiber.StatusNotFound`. -/
def StatusNotFound : Nat := 404

/-- Constant `fiber.StatusConflict`. -/
def StatusConflict : Nat := 409

/-- Constant `fiber.StatusInternalServerError`. -/
def StatusInternalServerError : Nat := 500

/-- Function `ToHTTPStatusCode`: the `switch` on the code, case by case. -/
def ToHTTPStatusCode (code : Int) : Nat :=
  if code = CodeEmptyUsername ∨ code = CodeInvalidUsername ∨ code = CodeUsernameTooLong ∨
      code = CodeInvalidUserID ∨ code = CodeEmptyBody ∨ code = CodeInvalidUserPost ∨
      code = CodeEmptyDisplayName ∨ code = CodeDisplayNameTooLong ∨ code = CodeEmptyEmail ∨
      code = CodeEmptyRegistrationIP ∨ code = CodeBioTooLong ∨ code = CodeInvalidEmail ∨
      code = CodeEmailTooLong ∨ code = CodeEmptyPasswordHash ∨
      code = CodeIncompatiblePasswordHash ∨ code = CodeInvalidSaltLength ∨
      code = CodeInvalidBase64Salt ∨ code = CodeInvalidPage ∨ code = CodeInvalidNameIn ∨
      code = CodeInvalidEmailIn ∨ code = CodeInvalidIdIn then
    StatusBadRequest
  else if code = CodeUsernameAlreadyExists ∨ code = CodeEmailAlreadyExists then
    StatusConflict
  else if code = CodeUserNotFound then
    StatusNotFound
  else
    StatusInternalServerError

/-! ## Log level of `apps/spaces/api-server/main.go` -/

/-- Type `zerolog.Level`, an `int8`. -/
abbrev Level := Int

/-- Constant `zerolog.DebugLevel`. -/
def DebugLevel : Level := 0

/-- Constant `zerolog.InfoLevel`. -/
def InfoLevel : Level := 1

/-- Constant `zerolog.ErrorLevel`. -/
def ErrorLevel : Level := 3

/-- The slice `verbosityLevels` of `main`. -/
def verbosityLevels : List Level := [DebugLevel, InfoLevel, ErrorLevel]

/-- Go indexing `levels[i]` of a slice with an `int`: a run-time panic when the index is
negative or not below the length. -/
def indexLevel (levels : List Level) (i : Int) : Outcome Level :=
  if i < 0 then .panic "index out of range"
  else
    match levels.get? i.toNat with
    | some level => .ok level
    | none => .panic "index out of range"

/-- Lines 30-46 of `main` of the spaces api-server: the verbosity is checked against the
table, set to 0 when test spaces are requested, and used as index into the table. The
arguments are the values of the flags `--verbosity` and `--test-spaces`. -/
def selectLogLevel (verbosity testSpaces : Int) : Outcome Level :=
  let verbosity₁ :=
    if verbosity < 0 ∨ verbosity > (verbosityLevels.length : Int) then 1 else verbosity
  let verbosity₂ := if testSpaces > 0 then 0 else verbosity₁
  indexLevel verbosityLevels verbosity₂

/-! ## SHA-256 (`crypto/sha256`) -/

/-- A Go `string` or `[]byte`: a sequence of bytes. -/
abbrev Bytes := List UInt8

/-- The bytes of a text, for writing samples. -/
def bytesOf (s : String) : Bytes := s.toList.map fun c => c.toNat.toUInt8

/-- Primality by trial division. -/
def isPrime (n : Nat) : Bool :=
  decide (2 ≤ n) && (List.range n).all fun d => decide (d < 2) || n % d != 0

/-- The first `count` prime numbers, for `count` up to 64. -/
def firstPrimes (count : Nat) : List Nat := ((List.range 312).filter isPrime).take count

/-- The largest `r + x` with `x < 2 ^ bits` and `(r + x) ^ k ≤ n`, found bit by bit. -/
def integerRoot (k n : Nat) : Nat → Nat → Nat
  | 0, r => r
  | bits + 1, r =>
    if (r + 2 ^ bits) ^ k ≤ n then integerRoot k n bits (r + 2 ^ bits)
    else integerRoot k n bits r

/-- The first 32 bits of the fractional part of the `k`-th root of `p`. -/
def rootFraction (k p : Nat) : Nat := integerRoot k (p * 2 ^ (32 * k)) 40 0 % 4294967296

/-- The 64 round constants of SHA-256: the first 32 bits of the fractional parts of the cube
roots of the first 64 primes. -/
def sha256K : List Nat := (firstPrimes 64).map (rootFraction 3)

/-- The initial hash value of SHA-256: the first 32 bits of the fractional parts of the square
roots of the first 8 primes. -/
def sha256Init : List Nat := (firstPrimes 8).map (rootFraction 2)

/-- Reduction to a 32-bit word. -/
def word32 (x : Nat) : Nat := x % 4294967296

/-- Rotation of a 32-bit word to the right. -/
def rotateRight (x n : Nat) : Nat := word32 ((x >>> n) ||| (x <<< (32 - n)))

/-- Function Σ0 of SHA-256. -/
def bigSigma0 (x : Nat) : Nat := rotateRight x 2 ^^^ rotateRight x 13 ^^^ rotateRight x 22

/-- Function Σ1 of SHA-256. -/
def bigSigma1 (x : Nat) : Nat := rotateRight x 6 ^^^ rotateRight x 11 ^^^ rotateRight x 25

/-- Function σ0 of SHA-256. -/
def smallSigma0 (x : Nat) : Nat := rotateRight x 7 ^^^ rotateRight x 18 ^^^ (x >>> 3)

/-- Function σ1 of SHA-256. -/
def smallSigma1 (x : Nat) : Nat := rotateRight x 17 ^^^ rotateRight x 19 ^^^ (x >>> 10)

/-- Function Ch of SHA-256. -/
def shaCh (e f g : Nat) : Nat := (e &&& f) ^^^ ((4294967295 - e) &&& g)

/-- Function Maj of SHA-256. -/
def shaMaj (a b c : Nat) : Nat := (a &&& b) ^^^ (a &&& c) ^^^ (b &&& c)

/-- The message schedule: `n` more words are added to the words `ws` computed so far, which
are listed newest first. -/
def shaSchedule : Nat → List Nat → List Nat
  | 0, ws => ws
  | n + 1, ws =>
    match ws with
    | _ :: w2 :: _ :: _ :: _ :: _ :: w7 :: _ :: _ :: _ :: _ :: _ :: _ :: _ :: w15 :: w16 :: _ =>
      shaSchedule n (word32 (smallSigma1 w2 + w7 + smallSigma0 w15 + w16) :: ws)
    | _ => ws

/-- The eight working variables of the compression function. -/
structure ShaState where
  a : Nat
  b : Nat
  c : Nat
  d : Nat
  e : Nat
  f : Nat
  g : Nat
  h : Nat

/-- The rounds of the compression function, one for each round constant and schedule word. -/
def shaRounds : List Nat → List Nat → ShaState → ShaState
  | k :: ks, w :: ws, s =>
    let t1 := word32 (s.h + bigSigma1 s.e + shaCh s.e s.f s.g + k + w)
    let t2 := word32 (bigSigma0 s.a + shaMaj s.a s.b s.c)
    shaRounds ks ws ⟨word32 (t1 + t2), s.a, s.b, s.c, word32 (s.d + t1), s.e, s.f, s.g⟩
  | _, _, s => s

/-- The big-endian 32-bit words of a block of bytes. -/
def shaWords : List Nat → List Nat
  | b0 :: b1 :: b2 :: b3 :: rest =>
    (b0 <<< 24 ||| b1 <<< 16 ||| b2 <<< 8 ||| b3) :: shaWords rest
  | _ => []

/-- The compression of one 64-byte block into the hash value `hs`. -/
def shaCompress (hs : List Nat) (block : List Nat) : List Nat :=
  match hs with
  | [h0, h1, h2, h3, h4, h5, h6, h7] =>
    let ws := (shaSchedule 48 (shaWords block).reverse).reverse
    let s := shaRounds sha256K ws ⟨h0, h1, h2, h3, h4, h5, h6, h7⟩
    [word32 (h0 + s.a), word32 (h1 + s.b), word32 (h2 + s.c), word32 (h3 + s.d),
      word32 (h4 + s.e), word32 (h5 + s.f), word32 (h6 + s.g), word32 (h7 + s.h)]
  | _ => hs

/-- The compression of `n` successive 64-byte blocks. -/
def shaBlocks : Nat → List Nat → List Nat → List Nat
  | 0, hs, _ => hs
  | n + 1, hs, bytes => shaBlocks n (shaCompress hs (bytes.take 64)) (bytes.drop 64)

/-- The `width` bytes of `x`, most significant first. -/
def bigEndian (width : Nat) (x : Nat) : List Nat :=
  (List.range width).reverse.map fun i => (x >>> (8 * i)) % 256

/-- The padding of SHA-256: the bit 1, zero bits up to 56 bytes modulo 64, and the length of
the message in bits on 8 bytes. -/
def shaPad (msg : List Nat) : List Nat :=
  msg ++ [128] ++ List.replicate ((119 - msg.length % 64) % 64) 0 ++ bigEndian 8 (8 * msg.length)

/-- Go `sha256.Sum256`: the SHA-256 digest (FIPS 180-4) of the data, 32 bytes. -/
def Sum256 (data : Bytes) : Bytes :=
  let padded := shaPad (data.map UInt8.toNat)
  ((shaBlocks (padded.length / 64) sha256Init padded).flatMap (bigEndian 4)).map Nat.toUInt8

/-! ## Base64 (`encoding/base64`) -/

/-- The decoding table of `base64.URLEncoding`: the six-bit value of a byte of the alphabet
`A-Z a-z 0-9 - _`, and nothing (`0xff` in the source) for every other byte. -/
def decodeMapURL (c : UInt8) : Option Nat :=
  if 65 ≤ c.toNat ∧ c.toNat ≤ 90 then some (c.toNat - 65)
  else if 97 ≤ c.toNat ∧ c.toNat ≤ 122 then some (c.toNat - 97 + 26)
  else if 48 ≤ c.toNat ∧ c.toNat ≤ 57 then some (c.toNat - 48 + 52)
  else if c.toNat = 45 then some 62
  else if c.toNat = 95 then some 63
  else none

/-- The loop `for si < len(src) && (src[si] == '\n' || src[si] == '\r') { si++ }`. -/
def skipNewlines : List UInt8 → List UInt8
  | [] => []
  | c :: rest => if c = 10 ∨ c = 13 then skipNewlines rest else c :: rest

/-- The end of `decodeQuantum`: the six-bit values read (2, 3 or 4 of them) are packed into
24 bits, of which one byte less than values read is written out. -/
def quantumBytes (dbuf : List Nat) : Bytes :=
  let val := dbuf.getD 0 0 <<< 18 ||| dbuf.getD 1 0 <<< 12 ||| dbuf.getD 2 0 <<< 6 ||| dbuf.getD 3 0
  ([val >>> 16, val >>> 8, val].map fun b => (b % 256).toUInt8).take (dbuf.length - 1)

/-- The padded, non-strict `(*Encoding).Decode` of `encoding/base64`, as the succession of its
`decodeQuantum` steps over the rest of the input: `n` is the output written so far, `dbuf`
the six-bit values read in the current quantum. The result is the output written and whether
a `CorruptInputError` is returned. A quantum that fails writes nothing, and the output of the
quanta before it is kept. (The source decodes runs of 8 and 4 valid bytes at once before
falling back to `decodeQuantum`, with the same result.) -/
def decodeFrom (n : Bytes) (dbuf : List Nat) : List UInt8 → Bytes × Bool
  | [] => if dbuf.length = 0 then (n, false) else (n, true)
  | c :: rest =>
    match decodeMapURL c with
    | some out =>
      if dbuf.length = 3 then decodeFrom (n ++ quantumBytes (dbuf ++ [out])) [] rest
      else decodeFrom n (dbuf ++ [out]) rest
    | none =>
      if c = 10 ∨ c = 13 then decodeFrom n dbuf rest
      else if c ≠ 61 then (n, true)
      else if dbuf.length < 2 then (n, true)
      else if dbuf.length = 2 then
        match skipNewlines rest with
        | [] => (n, true)
        | c₂ :: rest₂ =>
          if c₂ ≠ 61 then (n, true)
          else (n ++ quantumBytes dbuf, decide (skipNewlines rest₂ ≠ []))
      else (n ++ quantumBytes dbuf, decide (skipNewlines rest ≠ []))

/-- Go `base64.URLEncoding.DecodeString`: the bytes decoded before the first error, and
whether there was an error. -/
def DecodeString (s : Bytes) : Bytes × Bool := decodeFrom [] [] s

/-! ## Password check of `users/login/main.go` -/

/-- Function `passwordIsCorrect`. The arguments `expected` and `salt` are pointers, and the
dereference of a nil pointer panics; the errors of the two `DecodeString` calls are
discarded by the source. -/
def passwordIsCorrect (provided : Bytes) (expected salt : Option Bytes) : Outcome Bool :=
  match expected, salt with
  | some expected, some salt =>
    let decodedExpected := (DecodeString expected).1
    let decodedSalt := (DecodeString salt).1
    let digestProvided := Sum256 provided
    let passWithSalt := digestProvided ++ decodedSalt
    .ok (decide (passWithSalt = decodedExpected))
  | _, _ => .panic "invalid memory address or nil pointer dereference"

/-! ## The handlers of `POST /` and `GET /logout` -/

/-- Modelled from the spec: the declaration of `api.User` (package `users/api/pkg/api`) is not
among the sources. The login handler reads its fields `ID`, `Base64PasswordHash` and
`Base64Salt`, the last two being pointers to strings, which can be nil. -/
structure User where
  ID : Int
  Base64PasswordHash : Option Bytes
  Base64Salt : Option Bytes

/-- Modelled from the spec: the declaration of the type `Error` of the package
`users/api/pkg/errors` is not among the sources. The login service reads and fills its fields
`Code` and `Message`. -/
structure Error where
  Code : Int
  Message : String
  deriving DecidableEq, Repr

/-- Constant `MessageInternalServerError`. -/
def MessageInternalServerError : String :=
  "An error occurred while processing the request. Please try again later."

/-- The error result of `getUserByUsername`: a `*uerrors.Error`, or an error of another
type. -/
inductive LookupError where
  | api (e : Error)
  | other (msg : String)
  deriving DecidableEq, Repr

/-- An HTTP response as `getUserByUsername` uses it: the status code and what
`ioutil.ReadAll(resp.Body)` returns. -/
structure HTTPResponse where
  StatusCode : Nat
  Body : Except String Bytes

/-- The users API as the login service sees it: the HTTP request for a URL (`cl.Do`, with
the creation of the request), and the two decodings of a response body by `json.Unmarshal`.
They are taken as given. -/
structure UsersAPI where
  Do : String → Except String HTTPResponse
  unmarshalError : Bytes → Except String Error
  unmarshalUser : Bytes → Except String User

/-- Function `getUserByUsername`. -/
def getUserByUsername (api : UsersAPI) (usersApiAddr username : String) :
    Except LookupError User :=
  match api.Do (usersApiAddr ++ "/users/username/" ++ username) with
  | .error err => .error (.other err)
  | .ok resp =>
    match resp.Body with
    | .error _ => .error (.api ⟨CodeInternalServerError, MessageInternalServerError⟩)
    | .ok body =>
      if resp.StatusCode ≠ 200 then
        match api.unmarshalError body with
        | .error _ => .error (.api ⟨CodeInternalServerError, MessageInternalServerError⟩)
        | .ok e => .error (.api e)
      else
        match api.unmarshalUser body with
        | .error _ => .error (.api ⟨CodeInternalServerError, MessageInternalServerError⟩)
        | .ok user => .ok user

/-- How the login service ends a request: with a response, or with the panic of the handler,
which nothing recovers. -/
inductive Reply where
  | responded (r : Response)
  | crashed (msg : String)
  deriving DecidableEq, Repr

/-- The handler of `POST /` after its session block (lines 187-241): the user is looked up by
the form value `login_username`, the form value `login_password` is checked against the
stored digest and salt, and a session is created when it is correct. -/
def loginAttempt (env : Env) (api : UsersAPI) (usersApiAddr username : String) (pwd : Bytes)
    (w : World) : Reply × World :=
  match getUserByUsername api usersApiAddr username with
  | .error (.api e) => (.responded ⟨ToHTTPStatusCode e.Code, .errorJSON e.Code e.Message⟩, w)
  | .error (.other _) => (.responded ⟨StatusBadRequest, .text "not ok"⟩, w)
  | .ok usr =>
    match passwordIsCorrect pwd usr.Base64PasswordHash usr.Base64Salt with
    | .ok true =>
      match createLoginSession env usr.ID w with
      | (r, w1) => (.responded r, w1)
    | .ok false => (.responded ⟨200, .text "does not match"⟩, w)
    | .error msg => (.crashed msg, w)
    | .panic msg => (.crashed msg, w)

/-- Handler of `POST /`. The error of `getSessionFromEtcd` is discarded by the source. -/
def postRoot (env : Env) (api : UsersAPI) (usersApiAddr cookie username : String)
    (pwd : Bytes) (w : World) : Reply × World :=
  match getSessionFromEtcd env cookie w with
  | (⟨some usrSession, some sessionID, _⟩, w1) =>
    match evaluateAndRenew env sessionID usrSession w1 with
    | (r, w2) =>
      if r.stillValid then (.responded ⟨404, .text "already logged in"⟩, w2)
      else loginAttempt env api usersApiAddr username pwd w2
  | (_, w1) => loginAttempt env api usersApiAddr username pwd w1

/-- Handler of `GET /logout`. The error of `getSessionFromEtcd` is discarded by the source;
an error of the delete is logged only. -/
def getLogout (env : Env) (cookie : String) (w : World) : Response × World :=
  match getSessionFromEtcd env cookie w with
  | (⟨some _, some sessID, _⟩, w1) =>
    let w2 := { w1 with cookieCleared := true }
    match etcdDelete env sessID w2 with
    | (some _, w3) =>
      (⟨200, .text "ok"⟩,
        { w3 with logged := w3.logged ++ ["error while trying to delete session"] })
    | (none, w3) => (⟨200, .text "ok"⟩, w3)
  | (_, w1) => (⟨404, .text "not logged int"⟩, w1)

/-- A sample of the users API: every request fails at the connection. -/
def unreachableAPI : UsersAPI :=
  { Do := fun _ => .error "connection refused",
    unmarshalError := fun _ => .error "unexpected end of JSON input",
    unmarshalUser := fun _ => .error "unexpected end of JSON input" }

/-- A sample of the users API: every user exists, with identifier 42 and the given password
digest and salt. -/
def apiWithUser (hash salt : Bytes) : UsersAPI :=
  { Do := fun _ => .ok { StatusCode := 200, Body := .ok [] },
    unmarshalError := fun _ => .error "unexpected end of JSON input",
    unmarshalUser := fun _ =>
      .ok { ID := 42, Base64PasswordHash := some hash, Base64Salt := some salt } }

/-- A world whose store holds, under `key`, bytes that are not a YAML document. -/
def worldWithGarbage (key : String) : World :=
  { kv := fun k => if k = key then some (.invalid "garbage") else none,
    clockReads := 0, etcdCalls := 0, requests := [], logged := [],
    cookieCleared := false, cookieSet := none }

/-- A sample environment: the clock stands at `now`, and etcd fails exactly the requests whose
numbers are listed in `failing`. -/
def envFailing (now : Time) (failing : List Nat) : Env :=
  { now := fun _ => now, etcdDown := fun n => decide (n ∈ failing) }

/-- The names of the fields of a stored YAML mapping, in order. -/
def fieldNames : StoredValue → List String
  | .mapping fields => fields.map Prod.fst
  | .invalid _ => []

end ShipKrew

namespace ShipKrew

/-! ## Auxiliary facts -/

theorem nsPerDay_eq : nsPerDay = 86400000000000 := by decide

/-- Truncated division by a day is below three exactly for durations below three days. -/
theorem tdiv_day_lt_three (a : Int) : Int.tdiv a nsPerDay < 3 ↔ a < 3 * nsPerDay := by
  rw [nsPerDay_eq]
  rcases le_or_lt 0 a with h | h
  · rw [Int.tdiv_eq_ediv h (by norm_num)]; omega
  · have hneg : Int.tdiv a 86400000000000 = -((-a) / 86400000000000) := by
      rw [← Int.tdiv_eq_ediv (by omega) (by norm_num), Int.neg_tdiv, neg_neg]
    rw [hneg]; omega

/-- A session due for renewal expires less than three days after the reading of the clock
that `time.Until` made, or had expired at the reading made by `Expired`. -/
theorem daysTillExpiration_lt_three (u : UserSession) (now₁ now₂ : Time) :
    u.DaysTillExpiration now₁ now₂ < 3 ↔
      (u.Expiration < now₁ ∨ u.Expiration - now₂ < 3 * nsPerDay) := by
  unfold UserSession.DaysTillExpiration UserSession.Expired Time.After
  by_cases h : u.Expiration < now₁
  · simp [h]
  · simp only [h, decide_False, Bool.false_eq_true, if_false, false_or]
    rw [tdiv_day_lt_three]
    have hmin : minDuration = -9223372036854775808 := by decide
    have hmax : maxDuration = 9223372036854775807 := by decide
    unfold Time.Sub
    rw [nsPerDay_eq, hmin, hmax]
    simp only [Time, Duration] at *
    split_ifs <;> constructor <;> intro _ <;> omega

/-- Decoding what `yaml.Marshal` produced gives the session back. -/
theorem yamlUnmarshal_yamlMarshal (u : UserSession) : yamlUnmarshal (yamlMarshal u) = .ok u := by
  cases u
  simp [yamlMarshal, yamlUnmarshal, decodeTime, decodeInt64, List.lookup]

/-! ## Renewal and expiry of sessions -/

/-- The call of `DaysTillExpiration` returns the value of the method at the next two readings
of the clock, and consumes one reading when the first finds the session expired and two
otherwise. -/
theorem callDaysTillExpiration_eq (u : UserSession) (env : Env) (w : World) :
    (u.callDaysTillExpiration env w).1 =
      u.DaysTillExpiration (env.now w.clockReads) (env.now (w.clockReads + 1)) ∧
    (u.callDaysTillExpiration env w).2 = { w with clockReads :=
      w.clockReads + (if u.Expired (env.now w.clockReads) then 1 else 2) } := by
  by_cases h : u.Expired (env.now w.clockReads) = true
  · simp [UserSession.callDaysTillExpiration, UserSession.DaysTillExpiration, timeNow, h]
  · simp [UserSession.callDaysTillExpiration, UserSession.DaysTillExpiration, timeNow, h]

/-- What the session block does with an expired session: the record in memory is left alone,
the cookie is cleared and the delete of the key is sent; the key leaves the store when etcd
carries the delete out, and the failure is logged otherwise. -/
theorem evaluateAndRenew_of_expired (env : Env) (sessionID : String) (u : UserSession)
    (w : World) (hexp : u.Expired (env.now w.clockReads) = true) :
    (evaluateAndRenew env sessionID u w).1 = ⟨false, false, u⟩ ∧
    (evaluateAndRenew env sessionID u w).2.requests = w.requests ++ [.delete sessionID] ∧
    (evaluateAndRenew env sessionID u w).2.cookieCleared = true ∧
    (env.etcdDown w.etcdCalls = false →
      (evaluateAndRenew env sessionID u w).2.kv =
        fun k => if k = sessionID then none else w.kv k) ∧
    (env.etcdDown w.etcdCalls = true →
      (evaluateAndRenew env sessionID u w).2.kv = w.kv) := by
  simp only [evaluateAndRenew, timeNow, hexp, deleteSession, etcdDelete]
  by_cases hdown : env.etcdDown w.etcdCalls = true
  · simp [hdown]
  · simp [hdown]

/-- What the session block does with a session that is not expired. When
`DaysTillExpiration` returns less than 3, the expiration becomes `now + 7 days` for the
reading `now` made by the `time.Now()` of the renewal, which is the third reading of the block
when `DaysTillExpiration` found the session expired and the fourth otherwise, and the write
of the record is sent; otherwise nothing changes but the count of clock readings. -/
theorem evaluateAndRenew_of_live (env : Env) (sessionID : String) (u : UserSession)
    (w : World) (hlive : u.Expired (env.now w.clockReads) = false) :
    (u.DaysTillExpiration (env.now (w.clockReads + 1)) (env.now (w.clockReads + 2)) < 3 →
      ∀ now : Time, now = (if u.Expired (env.now (w.clockReads + 1)) then
          env.now (w.clockReads + 2) else env.now (w.clockReads + 3)) →
        (evaluateAndRenew env sessionID u w).1 =
          ⟨true, true, { u with Expiration := now + 7 * nsPerDay }⟩ ∧
        (evaluateAndRenew env sessionID u w).2.requests = w.requests ++
          [.put sessionID (yamlMarshal { u with Expiration := now + 7 * nsPerDay })] ∧
        (evaluateAndRenew env sessionID u w).2.cookieCleared = w.cookieCleared ∧
        (evaluateAndRenew env sessionID u w).2.etcdCalls = w.etcdCalls + 1 ∧
        (env.etcdDown w.etcdCalls = false →
          (evaluateAndRenew env sessionID u w).2.kv =
            (fun k => if k = sessionID then
              some (yamlMarshal { u with Expiration := now + 7 * nsPerDay }) else w.kv k) ∧
          (evaluateAndRenew env sessionID u w).2.logged = w.logged) ∧
        (env.etcdDown w.etcdCalls = true →
          (evaluateAndRenew env sessionID u w).2.kv = w.kv ∧
          (evaluateAndRenew env sessionID u w).2.logged =
            w.logged ++ ["error while trying to update session"])) ∧
    (¬ u.DaysTillExpiration (env.now (w.clockReads + 1)) (env.now (w.clockReads + 2)) < 3 →
      evaluateAndRenew env sessionID u w =
        (⟨true, false, u⟩, { w with clockReads := w.clockReads + 3 })) := by
  by_cases h1 : u.Expired (env.now (w.clockReads + 1)) = true
  · have hval : u.DaysTillExpiration (env.now (w.clockReads + 1))
        (env.now (w.clockReads + 2)) = -1 := by
      simp [UserSession.DaysTillExpiration, h1]
    refine ⟨?_, ?_⟩
    · intro _ now hnow
      simp only [h1, if_true] at hnow
      subst hnow
      simp only [evaluateAndRenew, UserSession.callDaysTillExpiration, timeNow, hlive, h1,
        createSessionOnEtcd, etcdPut, Time.AddDate]
      by_cases hdown : env.etcdDown w.etcdCalls = true
      · simp [hdown]
      · simp [hdown]
    · intro hnot
      rw [hval] at hnot
      exact absurd (by decide) hnot
  · have h1f : u.Expired (env.now (w.clockReads + 1)) = false := by
      simpa using h1
    have hval : u.DaysTillExpiration (env.now (w.clockReads + 1))
        (env.now (w.clockReads + 2)) =
          Int.tdiv (Time.Sub u.Expiration (env.now (w.clockReads + 2))) nsPerDay := by
      simp [UserSession.DaysTillExpiration, h1f]
    rw [hval]
    refine ⟨?_, ?_⟩
    · intro hdue now hnow
      simp only [h1f, Bool.false_eq_true, if_false] at hnow
      subst hnow
      simp only [evaluateAndRenew, UserSession.callDaysTillExpiration, timeNow, hlive, h1f,
        createSessionOnEtcd, etcdPut, Time.AddDate]
      by_cases hdown : env.etcdDown w.etcdCalls = true
      · simp [hdown, hdue]
      · simp [hdown, hdue]
    · intro hnot
      simp [evaluateAndRenew, UserSession.callDaysTillExpiration, timeNow, hlive, h1f, hnot]

/-- C1: for every session and every sequence of clock readings that never goes back (a single
current time in particular), the session block of the login handlers does not decrease the
expiration of the session: the record left in memory expires no earlier than before, and so
does the record that the store holds under the session key afterwards, if it holds one. -/
theorem evaluateAndRenew_never_decreases_expiration (env : Env) (hclock : Monotone env.now)
    (sessionID : String) (usrSession : UserSession) (w : World) :
    usrSession.Expiration ≤ (evaluateAndRenew env sessionID usrSession w).1.session.Expiration ∧
    ∀ v₀ v, w.kv sessionID = some v₀ → yamlUnmarshal v₀ = .ok usrSession →
      (evaluateAndRenew env sessionID usrSession w).2.kv sessionID = some v →
      ∃ u, yamlUnmarshal v = .ok u ∧ usrSession.Expiration ≤ u.Expiration := by
  have h12 : env.now (w.clockReads + 1) ≤ env.now (w.clockReads + 2) := hclock (by omega)
  have h23 : env.now (w.clockReads + 2) ≤ env.now (w.clockReads + 3) := hclock (by omega)
  have hday := nsPerDay_eq
  by_cases hexp : usrSession.Expired (env.now w.clockReads) = true
  · -- expired: the record in memory is left alone and the key is deleted or kept as it was
    obtain ⟨hres, -, -, hup, hdn⟩ := evaluateAndRenew_of_expired env sessionID usrSession w hexp
    rw [hres]
    refine ⟨le_refl _, ?_⟩
    intro v₀ v h₀ hu hv
    by_cases hdown : env.etcdDown w.etcdCalls = true
    · rw [hdn hdown, h₀] at hv
      cases hv
      exact ⟨usrSession, hu, le_refl _⟩
    · rw [hup (by simpa using hdown)] at hv
      simp at hv
  · have hlive : usrSession.Expired (env.now w.clockReads) = false := by simpa using hexp
    obtain ⟨hdo, hskip⟩ := evaluateAndRenew_of_live env sessionID usrSession w hlive
    by_cases hdue : usrSession.DaysTillExpiration (env.now (w.clockReads + 1))
        (env.now (w.clockReads + 2)) < 3
    · -- renewed: the new expiration is seven days after the reading made at the renewal
      obtain ⟨hres, -, -, -, hup, hdn⟩ := hdo hdue _ rfl
      have hlt := (daysTillExpiration_lt_three _ _ _).1 hdue
      have hnew : usrSession.Expiration ≤
          (if usrSession.Expired (env.now (w.clockReads + 1)) then env.now (w.clockReads + 2)
            else env.now (w.clockReads + 3)) + 7 * nsPerDay := by
        by_cases h1 : usrSession.Expired (env.now (w.clockReads + 1)) = true
        · have hgt : usrSession.Expiration < env.now (w.clockReads + 1) := by
            simpa [UserSession.Expired, Time.After] using h1
          simp only [h1, if_true]
          simp only [Time, Duration] at *
          omega
        · have hle : ¬ usrSession.Expiration < env.now (w.clockReads + 1) := by
            simpa [UserSession.Expired, Time.After] using h1
          simp only [h1, if_false]
          simp only [Time, Duration] at *
          rcases hlt with h | h <;> omega
      rw [hres]
      refine ⟨hnew, ?_⟩
      intro v₀ v h₀ hu hv
      by_cases hdown : env.etcdDown w.etcdCalls = true
      · rw [(hdn hdown).1, h₀] at hv
        cases hv
        exact ⟨usrSession, hu, le_refl _⟩
      · rw [(hup (by simpa using hdown)).1] at hv
        simp only [if_true] at hv
        cases hv
        exact ⟨_, yamlUnmarshal_yamlMarshal _, hnew⟩
    · rw [hskip hdue]
      refine ⟨le_refl _, ?_⟩
      intro v₀ v h₀ hu hv
      simp only at hv
      rw [h₀] at hv
      cases hv
      exact ⟨usrSession, hu, le_refl _⟩

/-- A clock that ticks forward never goes back. -/
theorem tickingClock_monotone (start : Time) : Monotone (tickingClock start).now := by
  intro a b hab
  simp only [tickingClock, Time]
  omega

/-- Witness of C1: a session with two days left, read with a ticking clock. -/
theorem evaluateAndRenew_never_decreases_expiration_witness :
    Monotone (tickingClock (5 * nsPerDay)).now ∧
    sampleSession.Expiration ≤ (evaluateAndRenew (tickingClock (5 * nsPerDay)) "tok"
      sampleSession (worldWith "tok" sampleSession)).1.session.Expiration :=
  ⟨tickingClock_monotone _,
    (evaluateAndRenew_never_decreases_expiration (tickingClock (5 * nsPerDay))
      (tickingClock_monotone _) "tok" sampleSession (worldWith "tok" sampleSession)).1⟩

/-- C2: a session that is not expired and has fewer than 3 whole days left is renewed: its
expiration becomes the current time plus 7 days, the current time being the reading of the
clock made by the `time.Now()` of the renewal (the third reading of the block when
`DaysTillExpiration` found the session expired and returned -1, the fourth otherwise), one
write of the updated record under the same session key is sent to the store, and the store
holds that record under the key once it has accepted the write. A session that is not
expired and has 3 or more whole days left is not renewed: the record, the requests sent to
the store and the store are as before. -/
theorem evaluateAndRenew_renews_below_three_days (env : Env) (sessionID : String)
    (usrSession : UserSession) (w : World)
    (hlive : usrSession.Expired (env.now w.clockReads) = false) :
    (usrSession.DaysTillExpiration (env.now (w.clockReads + 1)) (env.now (w.clockReads + 2)) < 3 →
      (evaluateAndRenew env sessionID usrSession w).1 =
        ⟨true, true, { usrSession with Expiration :=
          (if usrSession.Expired (env.now (w.clockReads + 1)) then env.now (w.clockReads + 2)
            else env.now (w.clockReads + 3)) + 7 * nsPerDay }⟩ ∧
      (evaluateAndRenew env sessionID usrSession w).2.requests = w.requests ++
        [.put sessionID (yamlMarshal { usrSession with Expiration :=
          (if usrSession.Expired (env.now (w.clockReads + 1)) then env.now (w.clockReads + 2)
            else env.now (w.clockReads + 3)) + 7 * nsPerDay })] ∧
      (env.etcdDown w.etcdCalls = false →
        (evaluateAndRenew env sessionID usrSession w).2.kv sessionID =
          some (yamlMarshal { usrSession with Expiration :=
            (if usrSession.Expired (env.now (w.clockReads + 1)) then env.now (w.clockReads + 2)
              else env.now (w.clockReads + 3)) + 7 * nsPerDay }))) ∧
    (3 ≤ usrSession.DaysTillExpiration (env.now (w.clockReads + 1)) (env.now (w.clockReads + 2)) →
      (evaluateAndRenew env sessionID usrSession w).1 = ⟨true, false, usrSession⟩ ∧
      (evaluateAndRenew env sessionID usrSession w).2.requests = w.requests ∧
      (evaluateAndRenew env sessionID usrSession w).2.kv = w.kv) := by
  obtain ⟨hdo, hskip⟩ := evaluateAndRenew_of_live env sessionID usrSession w hlive
  constructor
  · intro hdue
    obtain ⟨hres, hreq, -, -, hup, -⟩ := hdo hdue _ rfl
    refine ⟨hres, hreq, ?_⟩
    intro hetcd
    rw [(hup hetcd).1]
    simp
  · intro hnot
    rw [hskip (not_lt.mpr hnot)]
    exact ⟨rfl, rfl, rfl⟩

/-- Witness of C2, the scenario of the specification: a session with a lifetime of 7 days,
read when 5 days of it have passed, is renewed to the current time plus 7 days. -/
theorem evaluateAndRenew_renews_below_three_days_witness :
    sampleSession.Expired (5 * nsPerDay) = false ∧
    sampleSession.DaysTillExpiration (5 * nsPerDay) (5 * nsPerDay) = 2 ∧
    (evaluateAndRenew (frozenClock (5 * nsPerDay)) "tok" sampleSession
      (worldWith "tok" sampleSession)).1 =
      ⟨true, true, { sampleSession with Expiration := 5 * nsPerDay + 7 * nsPerDay }⟩ :=
  ⟨by decide, by decide,
    ((evaluateAndRenew_renews_below_three_days (frozenClock (5 * nsPerDay)) "tok" sampleSession
      (worldWith "tok" sampleSession) (by decide)).1 (by decide)).1.trans (by decide)⟩

/-- A session that expires between the reading of `Expired` in the handler and the reading of
`Expired` in `DaysTillExpiration`: with the readings 0, 10, 20 and 1000 and an expiration at
instant 5, `DaysTillExpiration` returns -1 after its first reading, the block reads the clock
three times, and the renewal sets the expiration to the third reading, 20, plus 7 days. -/
theorem evaluateAndRenew_expiring_between_readings :
    (evaluateAndRenew (clockOf [0, 10, 20, 1000]) "tok" ⟨0, 42, 5⟩
      (worldWith "tok" ⟨0, 42, 5⟩)).1 = ⟨true, true, ⟨0, 42, 20 + 7 * nsPerDay⟩⟩ ∧
    (evaluateAndRenew (clockOf [0, 10, 20, 1000]) "tok" ⟨0, 42, 5⟩
      (worldWith "tok" ⟨0, 42, 5⟩)).2.clockReads = 3 := by
  decide

/-- C3, counterexample: the session with a lifetime of 7 days, read when 5 days of it have
passed, is renewed, and its new expiration (day 12) is not its old expiration plus 7 days
(day 14). -/
theorem renewal_is_not_old_expiration_plus_window :
    (evaluateAndRenew (frozenClock (5 * nsPerDay)) "tok" sampleSession
      (worldWith "tok" sampleSession)).1.renewed = true ∧
    (evaluateAndRenew (frozenClock (5 * nsPerDay)) "tok" sampleSession
      (worldWith "tok" sampleSession)).1.session.Expiration = 12 * nsPerDay ∧
    (evaluateAndRenew (frozenClock (5 * nsPerDay)) "tok" sampleSession
      (worldWith "tok" sampleSession)).1.session.Expiration ≠
      sampleSession.Expiration + 7 * nsPerDay := by
  decide

/-- C3, as amended: when the session block renews a session, the new expiration is the current
time plus 7 days, the current time being the reading of the clock made by the `time.Now()` of
the renewal (the third reading of the block when `DaysTillExpiration` found the session
expired and returned -1, the fourth otherwise); when the block does not renew the session,
the expiration is left unchanged. -/
theorem evaluateAndRenew_expiration_after (env : Env) (sessionID : String)
    (usrSession : UserSession) (w : World) :
    (evaluateAndRenew env sessionID usrSession w).1.session.Expiration =
      if (evaluateAndRenew env sessionID usrSession w).1.renewed
      then (if usrSession.Expired (env.now (w.clockReads + 1)) then env.now (w.clockReads + 2)
        else env.now (w.clockReads + 3)) + 7 * nsPerDay
      else usrSession.Expiration := by
  by_cases hexp : usrSession.Expired (env.now w.clockReads) = true
  · rw [(evaluateAndRenew_of_expired env sessionID usrSession w hexp).1]
    simp
  · have hlive : usrSession.Expired (env.now w.clockReads) = false := by simpa using hexp
    obtain ⟨hdo, hskip⟩ := evaluateAndRenew_of_live env sessionID usrSession w hlive
    by_cases hdue : usrSession.DaysTillExpiration (env.now (w.clockReads + 1))
        (env.now (w.clockReads + 2)) < 3
    · rw [(hdo hdue _ rfl).1]
      simp
    · rw [hskip hdue]
      simp

/-- C4, counterexample: the session with a lifetime of 7 days, read on day 8, is expired, and
the session block sends a delete of its key to the store, which then no longer holds it. -/
theorem expired_session_is_deleted_on_read :
    sampleSession.Expired (8 * nsPerDay) = true ∧
    (worldWith "tok" sampleSession).kv "tok" = some (yamlMarshal sampleSession) ∧
    (evaluateAndRenew (frozenClock (8 * nsPerDay)) "tok" sampleSession
      (worldWith "tok" sampleSession)).2.requests = [.delete "tok"] ∧
    (evaluateAndRenew (frozenClock (8 * nsPerDay)) "tok" sampleSession
      (worldWith "tok" sampleSession)).2.kv "tok" = none := by
  decide

/-- C4, as amended: for every expired session the session block reports it as not valid, does
not renew it, leaves the record in memory as it was and sends no write to the store; the one
request it sends to the store is the delete of the session key, and no other key of the store
changes. -/
theorem evaluateAndRenew_expired (env : Env) (sessionID : String) (usrSession : UserSession)
    (w : World) (hexp : usrSession.Expired (env.now w.clockReads) = true) :
    (evaluateAndRenew env sessionID usrSession w).1 = ⟨false, false, usrSession⟩ ∧
    (evaluateAndRenew env sessionID usrSession w).2.requests =
      w.requests ++ [.delete sessionID] ∧
    ∀ k, k ≠ sessionID → (evaluateAndRenew env sessionID usrSession w).2.kv k = w.kv k := by
  simp only [evaluateAndRenew, timeNow, hexp, deleteSession, etcdDelete]
  by_cases hdown : env.etcdDown w.etcdCalls = true
  · simp [hdown]
  · simp only [hdown]
    refine ⟨by simp, by simp, ?_⟩
    intro k hk
    simp [hk]

/-- Witness of C4 as amended, the scenario of the specification: a session with a lifetime of
7 days read on day 8. -/
theorem evaluateAndRenew_expired_witness :
    sampleSession.Expired ((frozenClock (8 * nsPerDay)).now 0) = true ∧
    (evaluateAndRenew (frozenClock (8 * nsPerDay)) "tok" sampleSession
      (worldWith "tok" sampleSession)).1 = ⟨false, false, sampleSession⟩ :=
  ⟨by decide, (evaluateAndRenew_expired (frozenClock (8 * nsPerDay)) "tok" sampleSession
    (worldWith "tok" sampleSession) (by decide)).1⟩

/-- The lookup of a token under which the store holds a well-formed session finds it. -/
theorem getSessionFromEtcd_found (env : Env) (cookie : String) (w : World) (v : StoredValue)
    (u : UserSession) (hcookie : cookie ≠ "") (hup : env.etcdDown w.etcdCalls = false)
    (hkv : w.kv cookie = some v) (hv : yamlUnmarshal v = .ok u) :
    getSessionFromEtcd env cookie w =
      (⟨some u, some cookie, none⟩, { w with etcdCalls := w.etcdCalls + 1 }) := by
  simp only [getSessionFromEtcd, etcdGet, hcookie, hup, hkv]
  simp [hv]

/-- The handler of `GET /` on the token of an expired session: the login page is served, the
session cookie is cleared and the delete of the token is sent to the store. -/
theorem getRoot_expired_session (env : Env) (cookie : String) (w : World) (v : StoredValue)
    (u : UserSession) (hcookie : cookie ≠ "") (hup : env.etcdDown w.etcdCalls = false)
    (hkv : w.kv cookie = some v) (hv : yamlUnmarshal v = .ok u)
    (hexp : u.Expired (env.now w.clockReads) = true) :
    (getRoot env cookie w).1 = ⟨200, .view "index" "Login"⟩ ∧
    (getRoot env cookie w).2.requests = w.requests ++ [.delete cookie] ∧
    (getRoot env cookie w).2.cookieCleared = true ∧
    (env.etcdDown (w.etcdCalls + 1) = false → (getRoot env cookie w).2.kv cookie = none) := by
  simp only [getRoot, getSessionFromEtcd_found env cookie w v u hcookie hup hkv hv,
    evaluateAndRenew, timeNow, hexp, deleteSession, etcdDelete]
  by_cases hdown : env.etcdDown (w.etcdCalls + 1) = true
  · simp [hdown]
  · simp [hdown]

/-- The handler of `GET /` on the token of a session that is not expired: the answer is
"already logged in" and no key leaves the store. -/
theorem getRoot_live_session (env : Env) (cookie : String) (w : World) (v : StoredValue)
    (u : UserSession) (hcookie : cookie ≠ "") (hup : env.etcdDown w.etcdCalls = false)
    (hkv : w.kv cookie = some v) (hv : yamlUnmarshal v = .ok u)
    (hlive : u.Expired (env.now w.clockReads) = false) :
    (getRoot env cookie w).1 = ⟨404, .text "already logged in"⟩ ∧
    (getRoot env cookie w).2.cookieCleared = w.cookieCleared ∧
    (getRoot env cookie w).2.kv cookie ≠ none := by
  obtain ⟨hdo, hskip⟩ := evaluateAndRenew_of_live env cookie u
    { w with etcdCalls := w.etcdCalls + 1 } hlive
  have hfacts : (evaluateAndRenew env cookie u
        { w with etcdCalls := w.etcdCalls + 1 }).1.stillValid = true ∧
      (evaluateAndRenew env cookie u
        { w with etcdCalls := w.etcdCalls + 1 }).2.cookieCleared = w.cookieCleared ∧
      (evaluateAndRenew env cookie u
        { w with etcdCalls := w.etcdCalls + 1 }).2.kv cookie ≠ none := by
    by_cases hdue : u.DaysTillExpiration (env.now (w.clockReads + 1))
        (env.now (w.clockReads + 2)) < 3
    · obtain ⟨hres, -, hcookieKept, -, hput, hfail⟩ := hdo hdue _ rfl
      refine ⟨by rw [hres], hcookieKept, ?_⟩
      by_cases hdown : env.etcdDown (w.etcdCalls + 1) = true
      · rw [(hfail hdown).1]
        simp [hkv]
      · rw [(hput (by simpa using hdown)).1]
        simp
    · rw [hskip hdue]
      exact ⟨rfl, rfl, by simp [hkv]⟩
  simp only [getRoot, getSessionFromEtcd_found env cookie w v u hcookie hup hkv hv, hfacts.1]
  exact ⟨by simp, hfacts.2.1, hfacts.2.2⟩

/-- C6, counterexample: with a clock that advances by one nanosecond between the two readings
made when the session is created, the session is created at instant 0, expires at 7 days plus
one nanosecond, and is therefore still live at `createdAt + 7 days + e` for `e` of one
nanosecond. -/
theorem created_session_live_just_after_ttl :
    (newUserSession (tickingClock 0) 42 (worldWith "tok" sampleSession)).1.CreatedAt = 0 ∧
    (newUserSession (tickingClock 0) 42 (worldWith "tok" sampleSession)).1.Expired
      ((newUserSession (tickingClock 0) 42 (worldWith "tok" sampleSession)).1.CreatedAt
        + 7 * nsPerDay + 1) = false := by
  decide

/-- C6, as amended: a session is live (`Expired` returns false) if and only if the current
time is not after its expiration. A session created at login expires 7 days after the second
of the two readings of the clock made at its creation, the first being its creation time;
when the clock does not go back between the two, the session is live at its creation time,
it is not live at any time `expiration + e` with `e > 0`, and it is not live at
`createdAt + 7 days + e` exactly when `e` exceeds the time between the two readings. -/
theorem session_live_iff_not_after_expiration (env : Env) (userID : Int) (w : World)
    (hclock : env.now w.clockReads ≤ env.now (w.clockReads + 1)) :
    (∀ (u : UserSession) (now : Time), u.Expired now = false ↔ now ≤ u.Expiration) ∧
    (newUserSession env userID w).1.CreatedAt = env.now w.clockReads ∧
    (newUserSession env userID w).1.Expiration = env.now (w.clockReads + 1) + 7 * nsPerDay ∧
    (newUserSession env userID w).1.Expired (newUserSession env userID w).1.CreatedAt = false ∧
    ∀ e : Int, 0 < e →
      (newUserSession env userID w).1.Expired
        ((newUserSession env userID w).1.Expiration + e) = true ∧
      ((newUserSession env userID w).1.Expired
        ((newUserSession env userID w).1.CreatedAt + 7 * nsPerDay + e) = true ↔
        env.now (w.clockReads + 1) - env.now w.clockReads < e) := by
  have hday := nsPerDay_eq
  refine ⟨?_, rfl, rfl, ?_, ?_⟩
  · intro u now
    simp [UserSession.Expired, Time.After]
  · simp only [newUserSession, timeNow, UserSession.Expired, Time.After, Time.AddDate,
      decide_eq_false_iff_not, not_lt]
    simp only [Time, Duration] at *
    omega
  · intro e he
    simp only [newUserSession, timeNow, UserSession.Expired, Time.After, Time.AddDate,
      decide_eq_true_eq]
    simp only [Time, Duration] at *
    constructor
    · omega
    · constructor <;> intro h <;> omega

/-- Witness of C6 as amended: a session created with a clock that advances by one nanosecond
between the two readings. -/
theorem session_live_iff_not_after_expiration_witness :
    (tickingClock 0).now 0 ≤ (tickingClock 0).now 1 ∧
    (newUserSession (tickingClock 0) 42 (worldWith "tok" sampleSession)).1.Expired
      ((newUserSession (tickingClock 0) 42 (worldWith "tok" sampleSession)).1.Expiration + 1)
      = true :=
  ⟨by decide, ((session_live_iff_not_after_expiration (tickingClock 0) 42
    (worldWith "tok" sampleSession) (by decide)).2.2.2.2 1 (by decide)).1⟩

/-! ## Permission decisions -/

/-- The inner loop never ends in an error: it returns the strings or panics. -/
theorem appendReasons_strings (acc rs : List String) :
    appendReasons acc (rs.map .string) = .ok (acc ++ rs) := by
  induction rs generalizing acc with
  | nil => simp [appendReasons]
  | cons r rest ih => simp [appendReasons, ih]

/-- Reading a key just written gives the value written; other keys are unchanged. -/
theorem mapGet_mapSet (m : List (String × List String)) (key : String) (val : List String)
    (k : String) : mapGet (mapSet m key val) k = if key = k then val else mapGet m k := by
  induction m with
  | nil => simp [mapSet, mapGet]
  | cons entry rest ih =>
    obtain ⟨k₀, v₀⟩ := entry
    by_cases h₀ : k₀ = key
    · by_cases hk : key = k
      · simp [mapSet, mapGet, h₀, hk]
      · simp [mapSet, mapGet, h₀, hk]
    · by_cases hk : k₀ = k
      · subst hk
        have hne : ¬ key = k₀ := fun h => h₀ h.symm
        simp only [mapSet, h₀, if_false, mapGet, if_true, hne]
      · simp only [mapSet, h₀, if_false, mapGet, hk, ih]

/-- A key that is not bound reads as the empty sequence. -/
theorem mapGet_of_not_mem (m : List (String × List String)) (k : String)
    (h : k ∉ m.map Prod.fst) : mapGet m k = [] := by
  induction m with
  | nil => rfl
  | cons entry rest ih =>
    obtain ⟨k₀, v₀⟩ := entry
    simp only [List.map_cons, List.mem_cons, not_or] at h
    have hne : ¬ k₀ = k := fun e => h.1 e.symm
    simp only [mapGet, hne, if_false]
    exact ih h.2

/-- On a rule output of the expected shape the outer loop ends normally, with a map that binds
every key of the output to the reasons listed under it and leaves the other keys as they
were. -/
theorem collectReasons_ruleOutput (m acc : List (String × List String))
    (hkeys : (m.map Prod.fst).Nodup) :
    ∃ reasons, collectReasons acc (m.map fun kv => (kv.1, .array (kv.2.map .string)))
        = .ok reasons ∧
      ∀ k, mapGet reasons k = if k ∈ m.map Prod.fst then mapGet m k else mapGet acc k := by
  induction m generalizing acc with
  | nil => exact ⟨acc, by simp [collectReasons], by simp⟩
  | cons entry rest ih =>
    obtain ⟨k₀, v₀⟩ := entry
    simp only [List.map_cons, List.nodup_cons] at hkeys
    obtain ⟨reasons, hrun, hget⟩ := ih (mapSet acc k₀ v₀) hkeys.2
    refine ⟨reasons, ?_, ?_⟩
    · simpa [collectReasons, appendReasons_strings] using hrun
    · intro k
      rw [hget k, mapGet_mapSet]
      by_cases hk : k₀ = k
      · have hin : k ∉ rest.map Prod.fst := hk ▸ hkeys.1
        simp [hin, hk, mapGet]
      · have hk2 : ¬ k = k₀ := fun h => hk h.symm
        by_cases hin : k ∈ rest.map Prod.fst
        · simp only [hin, if_true, List.map_cons, List.mem_cons, or_true, mapGet, hk, if_false]
        · simp only [hin, if_false, hk, List.map_cons, List.mem_cons, hk2, or_self]

/-- C7: whenever `verifySettingsPermissions` returns a decision, each of the three permissions
it returns has `allowed` equal to "the reasons are empty": the reasons are non-empty exactly
when `allowed` is false. -/
theorem verifySettingsPermissions_allowed_iff_no_reasons (lib : OpaLib) (v : verifier)
    (data : List UInt8) (perms : UserSettingsPermissions)
    (h : verifySettingsPermissions lib v data = .ok perms) :
    perms.CanModifyOwnProfile.Allowed = perms.CanModifyOwnProfile.Reasons.isEmpty ∧
    perms.CanChangeUsername.Allowed = perms.CanChangeUsername.Reasons.isEmpty ∧
    perms.CanChangeDOB.Allowed = perms.CanChangeDOB.Reasons.isEmpty := by
  have hlen : ∀ l : List String, (l.length == 0) = l.isEmpty := by
    intro l
    cases l <;> rfl
  unfold verifySettingsPermissions at h
  repeat' split at h
  all_goals cases h
  exact ⟨hlen _, hlen _, hlen _⟩

/-- Witness of C7: a rule output that denies the change of username only. -/
theorem verifySettingsPermissions_allowed_iff_no_reasons_witness :
    verifySettingsPermissions sampleLib
      (engineReturning (ruleOutput [("cant_change_username", ["too_recent"])])) emptyObjectBody
      = .ok ⟨⟨true, []⟩, ⟨false, ["too_recent"]⟩, ⟨true, []⟩⟩ ∧
    (false = ["too_recent"].isEmpty) :=
  ⟨by decide, (verifySettingsPermissions_allowed_iff_no_reasons sampleLib
    (engineReturning (ruleOutput [("cant_change_username", ["too_recent"])])) emptyObjectBody
    ⟨⟨true, []⟩, ⟨false, ["too_recent"]⟩, ⟨true, []⟩⟩ (by decide)).2.1⟩

/-- Under distinct keys, the reasons listed under a key are what the lookup of the key
reads. -/
theorem mapGet_of_mem (m : List (String × List String)) (k : String) (rs : List String)
    (hkeys : (m.map Prod.fst).Nodup) (hmem : (k, rs) ∈ m) : mapGet m k = rs := by
  induction m with
  | nil => cases hmem
  | cons entry rest ih =>
    obtain ⟨k₀, v₀⟩ := entry
    simp only [List.map_cons, List.nodup_cons] at hkeys
    rcases List.mem_cons.1 hmem with heq | hrest
    · cases heq
      simp [mapGet]
    · have hne : ¬ k₀ = k := by
        intro h
        exact hkeys.1 (h ▸ List.mem_map.2 ⟨(k, rs), hrest, rfl⟩)
      simp only [mapGet, hne, if_false]
      exact ih hkeys.2 hrest

/-- C8: on a rule output of the expected shape (a map from denial-category key to a sequence
of strings, given as the first expression of the first result set), the call returns a
decision in which each tracked capability has exactly the reasons listed under its own key,
in the same order, with `allowed` true exactly when that list is empty, and has no reasons
and `allowed` true when its key is absent: `CanModifyOwnProfile` reads
`not_allowed_change_settings`, `CanChangeUsername` reads `cant_change_username`,
`CanChangeDOB` reads `cant_change_dob`. No other key enters a decision. -/
theorem verifySettingsPermissions_reads_own_key (lib : OpaLib) (v : verifier)
    (data : List UInt8) (input inputValue : JSONValue) (m : List (String × List String))
    (moreExpressions : List ExpressionValue) (moreResults : List Result)
    (hparse : lib.Unmarshal data = .ok input)
    (hvalue : lib.InterfaceToValue input = .ok inputValue)
    (heval : v.settingsPermissions inputValue =
      .ok ({ Expressions := { Value := ruleOutput m } :: moreExpressions } :: moreResults))
    (hkeys : (m.map Prod.fst).Nodup) :
    ∃ perms, verifySettingsPermissions lib v data = .ok perms ∧
      (∀ rs, ("not_allowed_change_settings", rs) ∈ m →
        perms.CanModifyOwnProfile = ⟨rs.isEmpty, rs⟩) ∧
      ("not_allowed_change_settings" ∉ m.map Prod.fst →
        perms.CanModifyOwnProfile = ⟨true, []⟩) ∧
      (∀ rs, ("cant_change_username", rs) ∈ m →
        perms.CanChangeUsername = ⟨rs.isEmpty, rs⟩) ∧
      ("cant_change_username" ∉ m.map Prod.fst →
        perms.CanChangeUsername = ⟨true, []⟩) ∧
      (∀ rs, ("cant_change_dob", rs) ∈ m →
        perms.CanChangeDOB = ⟨rs.isEmpty, rs⟩) ∧
      ("cant_change_dob" ∉ m.map Prod.fst →
        perms.CanChangeDOB = ⟨true, []⟩) := by
  have hlen : ∀ l : List String, (l.length == 0) = l.isEmpty := by
    intro l
    cases l <;> rfl
  obtain ⟨reasons, hrun, hget⟩ := collectReasons_ruleOutput m [] hkeys
  have hpresent : ∀ k rs, (k, rs) ∈ m → mapGet reasons k = rs := by
    intro k rs hmem
    have hin : k ∈ m.map Prod.fst := List.mem_map.2 ⟨(k, rs), hmem, rfl⟩
    rw [hget k]
    simp only [hin, if_true]
    exact mapGet_of_mem m k rs hkeys hmem
  have habsent : ∀ k, k ∉ m.map Prod.fst → mapGet reasons k = [] := by
    intro k hin
    rw [hget k]
    simp only [hin, if_false, mapGet]
  have hres : verifySettingsPermissions lib v data = .ok {
      CanModifyOwnProfile := {
        Allowed := (mapGet reasons "not_allowed_change_settings").isEmpty,
        Reasons := mapGet reasons "not_allowed_change_settings" },
      CanChangeUsername := {
        Allowed := (mapGet reasons "cant_change_username").isEmpty,
        Reasons := mapGet reasons "cant_change_username" },
      CanChangeDOB := {
        Allowed := (mapGet reasons "cant_change_dob").isEmpty,
        Reasons := mapGet reasons "cant_change_dob" } } := by
    simp only [verifySettingsPermissions, hparse, hvalue, heval, ruleOutput, hrun, hlen,
      notAllowedChangeSettings, cantChangeUsername, cantChangeDOB]
  refine ⟨_, hres, ?_⟩
  simp only
  refine ⟨?_, ?_, ?_, ?_, ?_, ?_⟩
  · intro rs hmem
    rw [hpresent _ rs hmem]
  · intro hin
    rw [habsent _ hin]
    rfl
  · intro rs hmem
    rw [hpresent _ rs hmem]
  · intro hin
    rw [habsent _ hin]
    rfl
  · intro rs hmem
    rw [hpresent _ rs hmem]
  · intro hin
    rw [habsent _ hin]
    rfl

/-- Witness of C8: a rule output with three categories, in which the key of the username
change comes last and carries two reasons, the key of the change of date of birth carries an
empty list, and the key of the profile change is absent. -/
theorem verifySettingsPermissions_reads_own_key_witness :
    ([("other_category", ["z"]), ("cant_change_dob", []),
      ("cant_change_username", ["too_recent", "banned"])].map Prod.fst).Nodup ∧
    ∃ perms, verifySettingsPermissions sampleLib
        (engineReturning (ruleOutput [("other_category", ["z"]), ("cant_change_dob", []),
          ("cant_change_username", ["too_recent", "banned"])])) emptyObjectBody = .ok perms ∧
      perms.CanModifyOwnProfile = ⟨true, []⟩ ∧
      perms.CanChangeUsername = ⟨false, ["too_recent", "banned"]⟩ ∧
      perms.CanChangeDOB = ⟨true, []⟩ :=
  ⟨by decide,
    (verifySettingsPermissions_reads_own_key sampleLib
      (engineReturning (ruleOutput [("other_category", ["z"]), ("cant_change_dob", []),
        ("cant_change_username", ["too_recent", "banned"])])) emptyObjectBody
      (.object []) (.object []) [("other_category", ["z"]), ("cant_change_dob", []),
        ("cant_change_username", ["too_recent", "banned"])] [] []
      rfl rfl rfl (by decide)).imp fun _ h =>
        ⟨h.1, h.2.2.1 (by decide), h.2.2.2.1 ["too_recent", "banned"] (by decide),
          h.2.2.2.2.2.1 [] (by decide)⟩⟩

/-- The scenario of the specification in which the rule output is
`cant_change_username: ["too_recent"]`: the change of username is denied with the reason
`too_recent`, and the other two capabilities are allowed with no reasons. The same decision
comes out when the key stands after other categories. -/
theorem verifySettingsPermissions_username_denied :
    verifySettingsPermissions sampleLib
      (engineReturning (ruleOutput [("cant_change_username", ["too_recent"])])) emptyObjectBody
      = .ok ⟨⟨true, []⟩, ⟨false, ["too_recent"]⟩, ⟨true, []⟩⟩ ∧
    verifySettingsPermissions sampleLib
      (engineReturning (ruleOutput [("other_category", ["z"]), ("cant_change_dob", []),
        ("cant_change_username", ["too_recent"])])) emptyObjectBody
      = .ok ⟨⟨true, []⟩, ⟨false, ["too_recent"]⟩, ⟨true, []⟩⟩ := by
  decide

/-- The scenario of the specification with no denial category in the rule output: every
tracked capability is allowed, with no reasons. -/
theorem verifySettingsPermissions_no_denial :
    verifySettingsPermissions sampleLib (engineReturning (ruleOutput [])) emptyObjectBody
      = .ok ⟨⟨true, []⟩, ⟨true, []⟩, ⟨true, []⟩⟩ := by
  decide

/-- C9, the code at the failing inputs: when the rule engine returns a value of the wrong
shape (a string in place of the map, a string in place of a sequence of reasons, a number in
place of a reason), `verifySettingsPermissions` ends in a run-time panic of a type assertion
and the handler crashes, where the claim has an evaluation error returned to the caller. -/
theorem verifySettingsPermissions_wrong_shape_panics :
    verifySettingsPermissions sampleLib (engineReturning (.string "x")) emptyObjectBody
      = .panic "interface conversion: value is not a map" ∧
    verifySettingsPermissions sampleLib
      (engineReturning (.object [("cant_change_dob", .string "x")])) emptyObjectBody
      = .panic "interface conversion: value is not an array" ∧
    verifySettingsPermissions sampleLib
      (engineReturning (.object [("cant_change_dob", .array [.number "1"])])) emptyObjectBody
      = .panic "interface conversion: item is not a string" ∧
    postSettingsPermissions sampleLib (engineReturning (.string "x")) emptyObjectBody
      = .crashed "interface conversion: value is not a map" := by
  decide

/-- The part of C9 that the code keeps: when the engine reports zero result sets or a first
result set with zero expressions, the call fails with an error returned to the caller, which
the handler answers with status 500. -/
theorem verifySettingsPermissions_empty_result (lib : OpaLib) (v : verifier)
    (data : List UInt8) (input inputValue : JSONValue) (result : ResultSet)
    (hparse : lib.Unmarshal data = .ok input)
    (hvalue : lib.InterfaceToValue input = .ok inputValue)
    (heval : v.settingsPermissions inputValue = .ok result) :
    (result = [] →
      verifySettingsPermissions lib v data = .error "no results set" ∧
      postSettingsPermissions lib v data = .responded 500 (.text "no results set")) ∧
    (∀ moreResults, result = { Expressions := [] } :: moreResults →
      verifySettingsPermissions lib v data = .error "no expressions found" ∧
      postSettingsPermissions lib v data = .responded 500 (.text "no expressions found")) := by
  constructor
  · intro hres
    subst hres
    simp [postSettingsPermissions, verifySettingsPermissions, hparse, hvalue, heval]
  · intro moreResults hres
    subst hres
    simp [postSettingsPermissions, verifySettingsPermissions, hparse, hvalue, heval]

/-- The part of C9 that the code keeps: a first expression that is not a map never becomes a
decision; the call ends in a panic. -/
theorem verifySettingsPermissions_not_a_map (lib : OpaLib) (v : verifier)
    (data : List UInt8) (input inputValue val : JSONValue)
    (moreExpressions : List ExpressionValue) (moreResults : List Result)
    (hparse : lib.Unmarshal data = .ok input)
    (hvalue : lib.InterfaceToValue input = .ok inputValue)
    (heval : v.settingsPermissions inputValue =
      .ok ({ Expressions := { Value := val } :: moreExpressions } :: moreResults))
    (hshape : ∀ entries, val ≠ .object entries) :
    verifySettingsPermissions lib v data = .panic "interface conversion: value is not a map" := by
  cases val with
  | object entries => exact absurd rfl (hshape entries)
  | null => simp only [verifySettingsPermissions, hparse, hvalue, heval]
  | bool b => simp only [verifySettingsPermissions, hparse, hvalue, heval]
  | number digits => simp only [verifySettingsPermissions, hparse, hvalue, heval]
  | string s => simp only [verifySettingsPermissions, hparse, hvalue, heval]
  | array items => simp only [verifySettingsPermissions, hparse, hvalue, heval]

/-- C10, counterexample: the request body `{"a":`, a JSON object cut short, cannot be parsed,
and it is answered with status 500, which is not a 4xx status and is the status that answers
a failure of the evaluation too. -/
theorem unparsable_body_answered_500 :
    (∃ cause, sampleLib.Unmarshal truncatedBody = .error cause) ∧
    (postSettingsPermissions sampleLib (engineReturning (ruleOutput [])) truncatedBody).status
      = some 500 ∧
    (∀ status,
      (postSettingsPermissions sampleLib (engineReturning (ruleOutput [])) truncatedBody).status
        = some status → ¬ (400 ≤ status ∧ status < 500)) ∧
    (postSettingsPermissions sampleLib { settingsPermissions := fun _ => .error "timeout" }
      emptyObjectBody).status = some 500 := by
  refine ⟨⟨_, rfl⟩, by decide, ?_, by decide⟩
  intro status hstatus
  have h500 : (postSettingsPermissions sampleLib (engineReturning (ruleOutput []))
      truncatedBody).status = some 500 := by decide
  rw [h500] at hstatus
  cases hstatus
  decide

/-- C10, as amended: for every request body that cannot be parsed as an authorization input,
`verifySettingsPermissions` fails with the error "unable to parse input" wrapping the cause,
and the handler answers it with status 500 and that message, as it answers every other
error of the call. -/
theorem postSettingsPermissions_unparsable_body (lib : OpaLib) (v : verifier)
    (data : List UInt8) (cause : String) (hparse : lib.Unmarshal data = .error cause) :
    verifySettingsPermissions lib v data = .error ("unable to parse input: " ++ cause) ∧
    postSettingsPermissions lib v data =
      .responded 500 (.text ("unable to parse input: " ++ cause)) ∧
    ∀ (data₂ : List UInt8) (msg : String), verifySettingsPermissions lib v data₂ = .error msg →
      postSettingsPermissions lib v data₂ = .responded 500 (.text msg) := by
  refine ⟨?_, ?_, ?_⟩
  · simp [verifySettingsPermissions, hparse]
  · simp [postSettingsPermissions, verifySettingsPermissions, hparse]
  · intro data₂ msg hmsg
    simp [postSettingsPermissions, hmsg]

/-- Witness of C10 as amended: the body `{"a":`, a JSON object cut short. -/
theorem postSettingsPermissions_unparsable_body_witness :
    (∃ cause, sampleLib.Unmarshal truncatedBody = .error cause) ∧
    (postSettingsPermissions sampleLib (engineReturning (ruleOutput [])) truncatedBody).status
      = some 500 :=
  ⟨⟨_, rfl⟩, congrArg PolicyReply.status (postSettingsPermissions_unparsable_body sampleLib
    (engineReturning (ruleOutput [])) truncatedBody "cannot parse" rfl).2.1⟩

/-! ## Status codes and log level -/

/-- C17: `ToHTTPStatusCode` maps each of the 23 validation codes, numbered 1 to 23, to a
client-error status, 409 for `CodeUsernameAlreadyExists` and `CodeEmailAlreadyExists` and 400
for the other 21; it maps `CodeUserNotFound` (404) to 404; it maps every other integer, among
them `CodeInternalServerError` (500), to 500; so its result is one of 400, 404, 409, 500. -/
theorem ToHTTPStatusCode_table (code : Int) :
    ((1 ≤ code ∧ code ≤ 23) →
      ToHTTPStatusCode code =
        if code = CodeUsernameAlreadyExists ∨ code = CodeEmailAlreadyExists then 409
        else 400) ∧
    (CodeUsernameAlreadyExists = 12 ∧ CodeEmailAlreadyExists = 13) ∧
    ToHTTPStatusCode CodeUserNotFound = 404 ∧
    ToHTTPStatusCode CodeInternalServerError = 500 ∧
    ((code < 1 ∨ 23 < code) → code ≠ 404 → ToHTTPStatusCode code = 500) ∧
    (ToHTTPStatusCode code = 400 ∨ ToHTTPStatusCode code = 404 ∨
      ToHTTPStatusCode code = 409 ∨ ToHTTPStatusCode code = 500) := by
  refine ⟨?_, ⟨rfl, rfl⟩, by decide, by decide, ?_, ?_⟩
  · rintro ⟨hlo, hhi⟩
    interval_cases code <;> decide
  · intro hout hne
    simp only [ToHTTPStatusCode, CodeEmptyUsername, CodeInvalidUsername, CodeUsernameTooLong,
      CodeInvalidUserID, CodeEmptyBody, CodeInvalidUserPost, CodeEmptyDisplayName,
      CodeDisplayNameTooLong, CodeEmptyEmail, CodeEmptyRegistrationIP, CodeBioTooLong,
      CodeUsernameAlreadyExists, CodeEmailAlreadyExists, CodeInvalidEmail, CodeEmailTooLong,
      CodeEmptyPasswordHash, CodeIncompatiblePasswordHash, CodeInvalidSaltLength,
      CodeInvalidBase64Salt, CodeInvalidPage, CodeInvalidNameIn, CodeInvalidEmailIn,
      CodeInvalidIdIn, CodeUserNotFound, StatusInternalServerError]
    split_ifs <;> first | rfl | omega
  · simp only [ToHTTPStatusCode, StatusBadRequest, StatusConflict, StatusNotFound,
      StatusInternalServerError]
    split_ifs <;> simp

/-- Witness of C17: the codes 1, 12, 404, 500 and 0. -/
theorem ToHTTPStatusCode_table_witness :
    ToHTTPStatusCode 1 = 400 ∧ ToHTTPStatusCode 12 = 409 ∧ ToHTTPStatusCode 404 = 404 ∧
    ToHTTPStatusCode 500 = 500 ∧ ToHTTPStatusCode 0 = 500 :=
  ⟨((ToHTTPStatusCode_table 1).1 (by decide)).trans (by decide),
    ((ToHTTPStatusCode_table 12).1 (by decide)).trans (by decide),
    (ToHTTPStatusCode_table 0).2.2.1, (ToHTTPStatusCode_table 0).2.2.2.1,
    (ToHTTPStatusCode_table 0).2.2.2.2.1 (by decide) (by decide)⟩

/-- C18, the code at the failing input: with `--verbosity 3` and no test spaces the check
`verbosity > len(verbosityLevels)` lets the value 3 through, and the index 3 into the table
of three entries is out of range: the program panics at start-up. -/
theorem selectLogLevel_verbosity_three_panics :
    verbosityLevels.length = 3 ∧
    selectLogLevel 3 0 = .panic "index out of range" := by
  decide

/-- The part of C18 that the code keeps: the table is indexed inside its bounds for every
value of the flags except verbosity 3 without test spaces; a verbosity below 0 or above 3 is
replaced by the default 1, and a request for test spaces selects the debug level. -/
theorem selectLogLevel_in_range (verbosity testSpaces : Int) :
    (0 < testSpaces → selectLogLevel verbosity testSpaces = .ok DebugLevel) ∧
    (testSpaces ≤ 0 → (verbosity < 0 ∨ 3 < verbosity) →
      selectLogLevel verbosity testSpaces = .ok InfoLevel) ∧
    (testSpaces ≤ 0 → 0 ≤ verbosity → verbosity < 3 →
      ∃ level, selectLogLevel verbosity testSpaces = .ok level) ∧
    (testSpaces ≤ 0 → verbosity = 3 →
      selectLogLevel verbosity testSpaces = .panic "index out of range") := by
  refine ⟨?_, ?_, ?_, ?_⟩
  · intro ht
    simp [selectLogLevel, ht, indexLevel, verbosityLevels]
  · intro ht hv
    have ht2 : ¬ testSpaces > 0 := not_lt.mpr ht
    simp [selectLogLevel, ht2, hv, indexLevel, verbosityLevels]
  · intro ht h0 h3
    have ht2 : ¬ testSpaces > 0 := not_lt.mpr ht
    interval_cases verbosity <;>
      simp [selectLogLevel, ht2, indexLevel, verbosityLevels]
  · intro ht hv
    have ht2 : ¬ testSpaces > 0 := not_lt.mpr ht
    subst hv
    simp [selectLogLevel, ht2, indexLevel, verbosityLevels]

/-! ## Password check -/

set_option maxRecDepth 100000

/-- The constants of SHA-256 computed from the primes are the published ones: the initial
hash value, and the first and the last round constant. -/
theorem sha256_constants :
    sha256Init = [0x6a09e667, 0xbb67ae85, 0x3c6ef372, 0xa54ff53a, 0x510e527f, 0x9b05688c,
      0x1f83d9ab, 0x5be0cd19] ∧
    sha256K.length = 64 ∧ sha256K.head? = some 0x428a2f98 ∧
    sha256K.getLast? = some 0xc67178f2 := by
  decide

/-- The digest of the empty message, as published with the standard. -/
theorem Sum256_empty :
    Sum256 [] = [0xe3, 0xb0, 0xc4, 0x42, 0x98, 0xfc, 0x1c, 0x14, 0x9a, 0xfb, 0xf4, 0xc8, 0x99,
      0x6f, 0xb9, 0x24, 0x27, 0xae, 0x41, 0xe4, 0x64, 0x9b, 0x93, 0x4c, 0xa4, 0x95, 0x99, 0x1b,
      0x78, 0x52, 0xb8, 0x55] := by
  decide

/-- The digest of the message `abc`, as published with the standard. -/
theorem Sum256_abc :
    Sum256 (bytesOf "abc") = [0xba, 0x78, 0x16, 0xbf, 0x8f, 0x01, 0xcf, 0xea, 0x41, 0x41,
      0x40, 0xde, 0x5d, 0xae, 0x22, 0x23, 0xb0, 0x03, 0x61, 0xa3, 0x96, 0x17, 0x7a, 0x9c, 0xb4,
      0x10, 0xff, 0x61, 0xf2, 0x00, 0x15, 0xad] := by
  decide

/-- The compression function keeps the eight words of the hash value. -/
theorem shaCompress_length (hs block : List Nat) (h : hs.length = 8) :
    (shaCompress hs block).length = 8 := by
  match hs, h with
  | [_, _, _, _, _, _, _, _], _ => rfl

/-- The hash value has eight words after any number of blocks. -/
theorem shaBlocks_length (n : Nat) (hs bytes : List Nat) (h : hs.length = 8) :
    (shaBlocks n hs bytes).length = 8 := by
  induction n generalizing hs bytes with
  | zero => exact h
  | succ n ih => exact ih _ _ (shaCompress_length hs _ h)

/-- A digest has 32 bytes. -/
theorem Sum256_length (data : Bytes) : (Sum256 data).length = 32 := by
  have hflat : ∀ l : List Nat, (l.flatMap (bigEndian 4)).length = 4 * l.length := by
    intro l
    induction l with
    | nil => rfl
    | cons x rest ih =>
      simp only [List.flatMap_cons, List.length_append, ih, List.length_cons]
      simp [bigEndian]
      omega
  simp only [Sum256, List.length_map, hflat]
  rw [shaBlocks_length _ sha256Init _ (by rfl)]

/-- C11: for every provided password, stored digest and stored salt, `passwordIsCorrect`
returns, and it returns true exactly when the decoded stored digest equals, byte for byte,
the SHA-256 digest of the provided password followed by the decoded salt bytes; on every other
triple it returns false. -/
theorem passwordIsCorrect_iff_digest_matches (provided expected salt : Bytes) :
    ∃ b, passwordIsCorrect provided (some expected) (some salt) = .ok b ∧
      (b = true ↔ (DecodeString expected).1 = Sum256 provided ++ (DecodeString salt).1) ∧
      (b = false ↔ (DecodeString expected).1 ≠ Sum256 provided ++ (DecodeString salt).1) := by
  refine ⟨decide (Sum256 provided ++ (DecodeString salt).1 = (DecodeString expected).1),
    rfl, ?_, ?_⟩
  · rw [decide_eq_true_eq]
    exact eq_comm
  · rw [decide_eq_false_iff_not]
    exact not_congr eq_comm

/-- Witness of C11: the password `hunter2` against the digest stored for `hunter2` with the
salt `salt` is accepted, and the password `hunter3` against the same digest is rejected. -/
theorem passwordIsCorrect_iff_digest_matches_witness :
    passwordIsCorrect (bytesOf "hunter2")
      (some (bytesOf "9S-9MrKzuG_4jvbEkGKChfSCrxXdyylUH5S89Saj9sdzYWx0"))
      (some (bytesOf "c2FsdA==")) = .ok true ∧
    passwordIsCorrect (bytesOf "hunter3")
      (some (bytesOf "9S-9MrKzuG_4jvbEkGKChfSCrxXdyylUH5S89Saj9sdzYWx0"))
      (some (bytesOf "c2FsdA==")) = .ok false ∧
    ∃ b, passwordIsCorrect (bytesOf "hunter2") (some (bytesOf "AAAA")) (some (bytesOf "c2FsdA=="))
      = .ok b :=
  ⟨by decide, by decide,
    (passwordIsCorrect_iff_digest_matches (bytesOf "hunter2") (bytesOf "AAAA")
      (bytesOf "c2FsdA==")).imp fun _ h => h.1⟩

/-- C12, the code at the failing inputs: a stored salt that is not base64 (`!`) fails to decode
and the empty password is still accepted against the digest of the empty password; a stored
digest with a trailing `!` fails to decode and the password `hunter2` is still accepted. The
claim has `false` in both cases. -/
theorem passwordIsCorrect_true_on_decode_failure :
    (DecodeString (bytesOf "!")).2 = true ∧
    passwordIsCorrect (bytesOf "")
      (some (bytesOf "47DEQpj8HBSa-_TImW-5JCeuQeRkm5NMpJWZG3hSuFU="))
      (some (bytesOf "!")) = .ok true ∧
    (DecodeString (bytesOf "9S-9MrKzuG_4jvbEkGKChfSCrxXdyylUH5S89Saj9sdzYWx0!")).2 = true ∧
    passwordIsCorrect (bytesOf "hunter2")
      (some (bytesOf "9S-9MrKzuG_4jvbEkGKChfSCrxXdyylUH5S89Saj9sdzYWx0!"))
      (some (bytesOf "c2FsdA==")) = .ok true := by
  decide

/-- The part of C12 that the code keeps: when the stored digest decodes, with or without an
error, to fewer than 32 bytes, the password is rejected. -/
theorem passwordIsCorrect_short_digest (provided expected salt : Bytes)
    (hshort : (DecodeString expected).1.length < 32) :
    passwordIsCorrect provided (some expected) (some salt) = .ok false := by
  have hne : Sum256 provided ++ (DecodeString salt).1 ≠ (DecodeString expected).1 := by
    intro heq
    have hlen := congrArg List.length heq
    rw [List.length_append, Sum256_length] at hlen
    omega
  simp [passwordIsCorrect, hne]

/-! ## Errors of the session store -/

/-- The lookup of a token whose stored record cannot be deserialized returns the error of
`yaml.Unmarshal` and no session. -/
theorem getSessionFromEtcd_corrupt (env : Env) (cookie : String) (w : World) (v : StoredValue)
    (cause : String) (hcookie : cookie ≠ "") (hup : env.etcdDown w.etcdCalls = false)
    (hkv : w.kv cookie = some v) (hv : yamlUnmarshal v = .error cause) :
    getSessionFromEtcd env cookie w =
      (⟨none, none, some cause⟩, { w with etcdCalls := w.etcdCalls + 1 }) := by
  simp only [getSessionFromEtcd, etcdGet, hcookie, hup, hkv]
  simp [hv]

/-- The lookup of a token while the store cannot be reached returns the error of the store
and no session. -/
theorem getSessionFromEtcd_unavailable (env : Env) (cookie : String) (w : World)
    (hcookie : cookie ≠ "") (hdown : env.etcdDown w.etcdCalls = true) :
    getSessionFromEtcd env cookie w =
      (⟨none, none, some "etcd: request failed"⟩, { w with etcdCalls := w.etcdCalls + 1 }) := by
  simp [getSessionFromEtcd, etcdGet, hcookie, hdown]

/-- An unreachable store at the lookup is not reported by the handlers either: `GET /` serves
the login page and `GET /logout` answers "not logged int". -/
theorem lookup_unavailable_discarded (env : Env) (cookie : String) (w : World)
    (hcookie : cookie ≠ "") (hdown : env.etcdDown w.etcdCalls = true) :
    getRoot env cookie w =
      (⟨200, .view "index" "Login"⟩, { w with etcdCalls := w.etcdCalls + 1 }) ∧
    getLogout env cookie w =
      (⟨404, .text "not logged int"⟩, { w with etcdCalls := w.etcdCalls + 1 }) := by
  simp [getRoot, getLogout, getSessionFromEtcd_unavailable env cookie w hcookie hdown]

/-- C13, counterexample: the store holds, under the token `tok`, bytes that cannot be
deserialized; the lookup fails with an error, and `GET /` answers with status 200 and the
login page, `GET /logout` with status 404, neither with a server error. -/
theorem corrupt_session_not_reported :
    (getSessionFromEtcd (frozenClock 0) "tok" (worldWithGarbage "tok")).1.err
      = some "yaml: cannot unmarshal" ∧
    (getRoot (frozenClock 0) "tok" (worldWithGarbage "tok")).1
      = ⟨200, .view "index" "Login"⟩ ∧
    (getLogout (frozenClock 0) "tok" (worldWithGarbage "tok")).1
      = ⟨404, .text "not logged int"⟩ ∧
    (postRoot (frozenClock 0) unreachableAPI "http://users-api" "tok" "bob" []
      (worldWithGarbage "tok")).1 = .responded ⟨400, .text "not ok"⟩ := by
  decide

/-- C13, as amended: when the session lookup fails because the stored record cannot be
deserialized, the login handlers discard the error and go on as for a request without
session: `GET /` serves the login page with status 200, `GET /logout` answers 404 "not logged
int", `POST /` proceeds to the login attempt; the lookup leaves the store, the log and the
cookie as they were. -/
theorem corrupt_session_handled_as_no_session (env : Env) (api : UsersAPI)
    (usersApiAddr cookie username : String) (pwd : Bytes) (w : World) (v : StoredValue)
    (cause : String) (hcookie : cookie ≠ "") (hup : env.etcdDown w.etcdCalls = false)
    (hkv : w.kv cookie = some v) (hv : yamlUnmarshal v = .error cause) :
    (getSessionFromEtcd env cookie w).1.err = some cause ∧
    getRoot env cookie w =
      (⟨200, .view "index" "Login"⟩, { w with etcdCalls := w.etcdCalls + 1 }) ∧
    getLogout env cookie w =
      (⟨404, .text "not logged int"⟩, { w with etcdCalls := w.etcdCalls + 1 }) ∧
    postRoot env api usersApiAddr cookie username pwd w =
      loginAttempt env api usersApiAddr username pwd { w with etcdCalls := w.etcdCalls + 1 } := by
  have hlookup := getSessionFromEtcd_corrupt env cookie w v cause hcookie hup hkv hv
  simp [getRoot, getLogout, postRoot, hlookup]

/-- Witness of C13 as amended: the token `tok` over a store that holds unreadable bytes under
it. -/
theorem corrupt_session_handled_as_no_session_witness :
    ("tok" : String) ≠ "" ∧
    (getRoot (frozenClock 0) "tok" (worldWithGarbage "tok")).1
      = ⟨200, .view "index" "Login"⟩ :=
  ⟨by decide, congrArg Prod.fst (corrupt_session_handled_as_no_session (frozenClock 0)
    unreachableAPI "http://users-api" "tok" "bob" [] (worldWithGarbage "tok")
    (.invalid "garbage") "yaml: cannot unmarshal" (by decide) rfl rfl rfl).2.1⟩

/-- C14: a request without session cookie, and a token whose key the store does not hold
(never created, or deleted), get no session and no error from `getSessionFromEtcd`, whenever
the read of the store succeeds. -/
theorem getSessionFromEtcd_absent (env : Env) (cookie : String) (w : World) :
    (cookie = "" → getSessionFromEtcd env cookie w = (⟨none, none, none⟩, w)) ∧
    (cookie ≠ "" → env.etcdDown w.etcdCalls = false → w.kv cookie = none →
      getSessionFromEtcd env cookie w =
        (⟨none, none, none⟩, { w with etcdCalls := w.etcdCalls + 1 })) ∧
    (cookie ≠ "" → env.etcdDown w.etcdCalls = false →
      env.etcdDown (w.etcdCalls + 1) = false →
      (getSessionFromEtcd env cookie (deleteSession env cookie w).2).1 = ⟨none, none, none⟩) := by
  refine ⟨?_, ?_, ?_⟩
  · intro hcookie
    simp [getSessionFromEtcd, hcookie]
  · intro hcookie hup hkv
    simp [getSessionFromEtcd, etcdGet, hcookie, hup, hkv]
  · intro hcookie hup hup2
    simp [getSessionFromEtcd, etcdGet, deleteSession, etcdDelete, hcookie, hup, hup2]

/-- Witness of C14: the token `other`, never created, over a store that holds one session
under `tok`. -/
theorem getSessionFromEtcd_absent_witness :
    ("other" : String) ≠ "" ∧ (worldWith "tok" sampleSession).kv "other" = none ∧
    (getSessionFromEtcd (frozenClock 0) "other" (worldWith "tok" sampleSession)).1
      = ⟨none, none, none⟩ :=
  ⟨by decide, by decide, congrArg Prod.fst ((getSessionFromEtcd_absent (frozenClock 0) "other"
    (worldWith "tok" sampleSession)).2.1 (by decide) rfl (by decide))⟩

/-- C15: when the write of a renewed session fails, the handler of `GET /` answers "already
logged in" as it does when the write succeeds, the failure is logged, and the store is as
it was: a later lookup of the token finds the session with its original expiration, and the
session is live at every time up to that expiration. -/
theorem getRoot_renewal_write_fails (env : Env) (cookie : String) (w : World)
    (v : StoredValue) (u : UserSession) (hcookie : cookie ≠ "")
    (hup : env.etcdDown w.etcdCalls = false) (hkv : w.kv cookie = some v)
    (hv : yamlUnmarshal v = .ok u) (hlive : u.Expired (env.now w.clockReads) = false)
    (hdue : u.DaysTillExpiration (env.now (w.clockReads + 1)) (env.now (w.clockReads + 2)) < 3)
    (hfail : env.etcdDown (w.etcdCalls + 1) = true) :
    (getRoot env cookie w).1 = ⟨404, .text "already logged in"⟩ ∧
    (getRoot { env with etcdDown := fun _ => false } cookie w).1 = (getRoot env cookie w).1 ∧
    (getRoot env cookie w).2.logged = w.logged ++ ["error while trying to update session"] ∧
    (getRoot env cookie w).2.kv = w.kv ∧
    (∀ later : Env, later.etcdDown (getRoot env cookie w).2.etcdCalls = false →
      (getSessionFromEtcd later cookie (getRoot env cookie w).2).1 = ⟨some u, some cookie, none⟩) ∧
    ∀ t : Time, t ≤ u.Expiration → u.Expired t = false := by
  have hfound := getSessionFromEtcd_found env cookie w v u hcookie hup hkv hv
  have hfound2 := getSessionFromEtcd_found { env with etcdDown := fun _ => false } cookie w v u
    hcookie rfl hkv hv
  obtain ⟨hres, -, -, -, -, hdn⟩ := (evaluateAndRenew_of_live env cookie u
    { w with etcdCalls := w.etcdCalls + 1 } hlive).1 hdue _ rfl
  obtain ⟨hres2, -⟩ := (evaluateAndRenew_of_live { env with etcdDown := fun _ => false } cookie u
    { w with etcdCalls := w.etcdCalls + 1 } hlive).1 hdue _ rfl
  obtain ⟨hkvSame, hlogged⟩ := hdn hfail
  have hvalid : (evaluateAndRenew env cookie u
      { w with etcdCalls := w.etcdCalls + 1 }).1.stillValid = true := by rw [hres]
  have hvalid2 : (evaluateAndRenew { env with etcdDown := fun _ => false } cookie u
      { w with etcdCalls := w.etcdCalls + 1 }).1.stillValid = true := by rw [hres2]
  have hrun : getRoot env cookie w = (⟨404, .text "already logged in"⟩,
      (evaluateAndRenew env cookie u { w with etcdCalls := w.etcdCalls + 1 }).2) := by
    simp only [getRoot, hfound, hvalid, if_true]
  have hrun2 : (getRoot { env with etcdDown := fun _ => false } cookie w).1 =
      ⟨404, .text "already logged in"⟩ := by
    simp only [getRoot, hfound2, hvalid2, if_true]
  refine ⟨by rw [hrun], by rw [hrun, hrun2], by rw [hrun]; exact hlogged,
    by rw [hrun]; exact hkvSame, ?_, ?_⟩
  · intro later hlater
    have hkv2 : (getRoot env cookie w).2.kv cookie = some v := by
      rw [hrun]
      simp only
      rw [hkvSame]
      exact hkv
    rw [getSessionFromEtcd_found later cookie _ v u hcookie hlater hkv2 hv]
  · intro t ht
    simp only [UserSession.Expired, Time.After, decide_eq_false_iff_not, not_lt]
    exact ht

/-- Witness of C15: the session with a lifetime of 7 days, read on day 5 while the store
refuses the second request, the write of the renewal. -/
theorem getRoot_renewal_write_fails_witness :
    (envFailing (5 * nsPerDay) [1]).etcdDown 1 = true ∧
    (getRoot (envFailing (5 * nsPerDay) [1]) "tok" (worldWith "tok" sampleSession)).1
      = ⟨404, .text "already logged in"⟩ ∧
    (getRoot (envFailing (5 * nsPerDay) [1]) "tok" (worldWith "tok" sampleSession)).2.kv "tok"
      = some (yamlMarshal sampleSession) :=
  ⟨by decide,
    (getRoot_renewal_write_fails (envFailing (5 * nsPerDay) [1]) "tok"
      (worldWith "tok" sampleSession) (yamlMarshal sampleSession) sampleSession (by decide)
      (by decide) (by decide) (yamlUnmarshal_yamlMarshal sampleSession) (by decide) (by decide)
      (by decide)).1,
    by decide⟩

/-- C16, counterexample: the record that `createSessionOnEtcd` writes for the sample session
has the fields `createdAt`, `userId` and `expiration`, not `created_at`, `user_id` and
`expiration`. -/
theorem stored_record_field_names_differ :
    (createSessionOnEtcd (frozenClock 0) "tok" sampleSession
      (worldWith "tok" sampleSession)).2.requests = [.put "tok" (yamlMarshal sampleSession)] ∧
    fieldNames (yamlMarshal sampleSession) = ["createdAt", "userId", "expiration"] ∧
    fieldNames (yamlMarshal sampleSession) ≠ ["created_at", "user_id", "expiration"] := by
  decide

/-- C16, as amended: every session record that `createSessionOnEtcd` writes to the store is a
structured (YAML) document whose fields are named `createdAt`, `userId` and `expiration`,
the names `getSessionFromEtcd` reads the session back from. -/
theorem createSessionOnEtcd_field_names (env : Env) (sessionID : String)
    (usrSession : UserSession) (w : World) :
    ∃ val, (createSessionOnEtcd env sessionID usrSession w).2.requests =
        w.requests ++ [.put sessionID val] ∧
      fieldNames val = ["createdAt", "userId", "expiration"] ∧
      yamlUnmarshal val = .ok usrSession := by
  refine ⟨yamlMarshal usrSession, ?_, rfl, yamlUnmarshal_yamlMarshal usrSession⟩
  simp only [createSessionOnEtcd, etcdPut]
  split_ifs <;> rfl

end ShipKrew
